import Mathlib

/-!
Verification of the SQS command-language parser (`parseSQSCommands` /
`finalizeCommand` in the repository's CodeLens provider module).

The TypeScript parser is embedded shallowly: the document is split on
line feeds, each line is trimmed, and a small explicit scanner state is
threaded through the lines in order.  JavaScript's `JSON.parse` is
modelled by an executable recursive-descent JSON parser (`jsonParse`);
JSON numbers are kept as their source numerals, since no claim depends
on float semantics.  The two workspace-configuration lookups for the
default profile and region are abstracted as the two string parameters
`d1`/`d2` of the parse entry point (an unset setting is modelled as the
empty string; the source applies `|| 'default'` and `|| 'us-east-1'`
to the looked-up values, modelled by `orDefault`).
-/

namespace SQSClient

/-! ## String helpers modelling the JavaScript primitives used -/

/-- Model of `text.split('\n')`. -/
def splitLinesAux : List Char → List Char → List String
  | [], acc => [String.mk acc.reverse]
  | '\n' :: cs, acc => String.mk acc.reverse :: splitLinesAux cs []
  | c :: cs, acc => splitLinesAux cs (c :: acc)

def splitLines (s : String) : List String :=
  splitLinesAux s.data []

def jsTrimList (cs : List Char) : List Char :=
  ((cs.dropWhile Char.isWhitespace).reverse.dropWhile Char.isWhitespace).reverse

/-- Model of `String.prototype.trim` (ASCII whitespace suffices here). -/
def jsTrim (s : String) : String :=
  String.mk (jsTrimList s.data)

/-- Model of `String.prototype.startsWith`. -/
def strStartsWith (s p : String) : Bool :=
  p.data.isPrefixOf s.data

/-- Model of `array.join('\n')`. -/
def joinNL : List String → String
  | [] => ""
  | [x] => x
  | x :: xs => x ++ "\n" ++ joinNL xs

/-- Value of a non-empty digit string, as computed by `parseInt(−, 10)`. -/
def digitsToNat (cs : List Char) : Nat :=
  cs.foldl (fun n c => 10 * n + (c.toNat - 48)) 0

/-! ## A model of JavaScript `JSON.parse`

Strings are decoded (escape sequences resolved; `\uXXXX` becomes a
single scalar, surrogate pairs are not recombined — irrelevant for the
inputs considered here).  Numbers are kept as their raw numerals.
Recursion is by fuel; `jsonParse` supplies enough fuel for any input. -/

inductive Json where
  | null : Json
  | bool : Bool → Json
  | num : String → Json
  | str : String → Json
  | arr : List Json → Json
  | obj : List (String × Json) → Json

def isJsonWs (c : Char) : Bool :=
  c = ' ' || c = '\t' || c = '\n' || c = '\r'

def skipJsonWs (cs : List Char) : List Char :=
  cs.dropWhile isJsonWs

def hexVal (c : Char) : Option Nat :=
  if '0' ≤ c ∧ c ≤ '9' then some (c.toNat - 48)
  else if 'a' ≤ c ∧ c ≤ 'f' then some (c.toNat - 87)
  else if 'A' ≤ c ∧ c ≤ 'F' then some (c.toNat - 55)
  else none

def parseJStringAux : Nat → List Char → List Char → Option (String × List Char)
  | 0, _, _ => none
  | _ + 1, [], _ => none
  | fuel + 1, c :: cs, acc =>
    if c = '"' then some (String.mk acc.reverse, cs)
    else if c = '\\' then
      match cs with
      | [] => none
      | e :: cs2 =>
        if e = '"' then parseJStringAux fuel cs2 ('"' :: acc)
        else if e = '\\' then parseJStringAux fuel cs2 ('\\' :: acc)
        else if e = '/' then parseJStringAux fuel cs2 ('/' :: acc)
        else if e = 'b' then parseJStringAux fuel cs2 ('\x08' :: acc)
        else if e = 'f' then parseJStringAux fuel cs2 ('\x0c' :: acc)
        else if e = 'n' then parseJStringAux fuel cs2 ('\n' :: acc)
        else if e = 'r' then parseJStringAux fuel cs2 ('\r' :: acc)
        else if e = 't' then parseJStringAux fuel cs2 ('\t' :: acc)
        else if e = 'u' then
          match cs2 with
          | h1 :: h2 :: h3 :: h4 :: cs3 =>
            match hexVal h1, hexVal h2, hexVal h3, hexVal h4 with
            | some a, some b, some c2, some d =>
              parseJStringAux fuel cs3 (Char.ofNat (((a * 16 + b) * 16 + c2) * 16 + d) :: acc)
            | _, _, _, _ => none
          | _ => none
        else none
    else if c.toNat < 32 then none
    else parseJStringAux fuel cs (c :: acc)

def parseExpPart (acc : List Char) (cs : List Char) : Option (List Char × List Char) :=
  match cs with
  | e :: t =>
    if e = 'e' ∨ e = 'E' then
      let sgn : List Char × List Char :=
        match t with
        | '+' :: u => (['+'], u)
        | '-' :: u => (['-'], u)
        | _ => ([], t)
      let ds := sgn.2.takeWhile Char.isDigit
      if ds = [] then none
      else some (acc ++ e :: sgn.1 ++ ds, sgn.2.dropWhile Char.isDigit)
    else some (acc, cs)
  | [] => some (acc, cs)

def parseFracExp (acc : List Char) (cs : List Char) : Option (List Char × List Char) :=
  match cs with
  | '.' :: t =>
    let ds := t.takeWhile Char.isDigit
    if ds = [] then none
    else parseExpPart (acc ++ '.' :: ds) (t.dropWhile Char.isDigit)
  | _ => parseExpPart acc cs

def parseNumLit (cs : List Char) : Option (List Char × List Char) :=
  let signSplit : List Char × List Char :=
    match cs with
    | '-' :: t => (['-'], t)
    | _ => ([], cs)
  match signSplit.2 with
  | [] => none
  | c :: t =>
    if c = '0' then parseFracExp (signSplit.1 ++ [c]) t
    else if c.isDigit then
      parseFracExp (signSplit.1 ++ c :: t.takeWhile Char.isDigit) (t.dropWhile Char.isDigit)
    else none

mutual

def parseJValue : Nat → List Char → Option (Json × List Char)
  | 0, _ => none
  | fuel + 1, cs =>
    match skipJsonWs cs with
    | [] => none
    | c :: t =>
      if c = '{' then
        match skipJsonWs t with
        | '}' :: t2 => some (Json.obj [], t2)
        | _ =>
          match parseJMembers fuel (skipJsonWs t) with
          | some (ms, rest) => some (Json.obj ms, rest)
          | none => none
      else if c = '[' then
        match skipJsonWs t with
        | ']' :: t2 => some (Json.arr [], t2)
        | _ =>
          match parseJElems fuel (skipJsonWs t) with
          | some (vs, rest) => some (Json.arr vs, rest)
          | none => none
      else if c = '"' then
        match parseJStringAux (t.length + 1) t [] with
        | some (s, rest) => some (Json.str s, rest)
        | none => none
      else if c = 't' then
        match t with
        | 'r' :: 'u' :: 'e' :: t2 => some (Json.bool true, t2)
        | _ => none
      else if c = 'f' then
        match t with
        | 'a' :: 'l' :: 's' :: 'e' :: t2 => some (Json.bool false, t2)
        | _ => none
      else if c = 'n' then
        match t with
        | 'u' :: 'l' :: 'l' :: t2 => some (Json.null, t2)
        | _ => none
      else
        match parseNumLit (c :: t) with
        | some (lit, rest) => some (Json.num (String.mk lit), rest)
        | none => none

def parseJMembers : Nat → List Char → Option (List (String × Json) × List Char)
  | 0, _ => none
  | fuel + 1, cs =>
    match cs with
    | '"' :: t =>
      match parseJStringAux (t.length + 1) t [] with
      | some (key, rest) =>
        match skipJsonWs rest with
        | ':' :: rest2 =>
          match parseJValue fuel rest2 with
          | some (v, rest3) =>
            match skipJsonWs rest3 with
            | ',' :: rest4 =>
              match parseJMembers fuel (skipJsonWs rest4) with
              | some (ms, rest5) => some ((key, v) :: ms, rest5)
              | none => none
            | '}' :: rest4 => some ([(key, v)], rest4)
            | _ => none
          | none => none
        | _ => none
      | none => none
    | _ => none

def parseJElems : Nat → List Char → Option (List Json × List Char)
  | 0, _ => none
  | fuel + 1, cs =>
    match parseJValue fuel cs with
    | some (v, rest) =>
      match skipJsonWs rest with
      | ',' :: rest2 =>
        match parseJElems fuel (skipJsonWs rest2) with
        | some (vs, rest3) => some (v :: vs, rest3)
        | none => none
      | ']' :: rest2 => some ([v], rest2)
      | _ => none
    | none => none

end

/-- Model of `JSON.parse` as a total function: `none` models a thrown
`SyntaxError`. -/
def jsonParse (s : String) : Option Json :=
  match parseJValue (s.length + 1) s.data with
  | some (v, rest) => if skipJsonWs rest = [] then some v else none
  | none => none

/-! ## The data model (`SQSCommand` of `sqsTypes`) -/

inductive SQSCommandType where
  | SEND : SQSCommandType
  | RECEIVE : SQSCommandType
  | PURGE : SQSCommandType
deriving DecidableEq

/-- `vscode.Range` as used by `finalizeCommand`: start/end positions with
line and character components. -/
structure SQSRange where
  startLine : Int
  startCharacter : Int
  endLine : Int
  endCharacter : Int

/-- The `SQSCommand` record.  The builder under construction is the same
structure with `range := none` (the source uses `Partial<SQSCommand>`,
but `type` and `queueUrl` are always set at construction). -/
structure SQSCommand where
  type : SQSCommandType
  queueUrl : String
  profile : String
  region : String
  messageBody : Option Json := none
  maxMessages : Option Nat := none
  visibilityTimeout : Option Nat := none
  waitTimeSeconds : Option Nat := none
  range : Option SQSRange := none

/-! ## The regex models

`commandBlockPattern = /^(SEND|RECEIVE|PURGE)\s+([^\s]+)/`,
`/^profile\s*:\s*(.+)$/`, `/^region\s*:\s*(.+)$/`,
`/^max-messages\s*:\s*(\d+)$/`, `/^visibility-timeout\s*:\s*(\d+)$/`,
`/^wait-time\s*:\s*(\d+)$/`.  All are applied to the trimmed line. -/

def keywordOf (line : String) : Option (SQSCommandType × Nat) :=
  if strStartsWith line "SEND" then some (SQSCommandType.SEND, 4)
  else if strStartsWith line "RECEIVE" then some (SQSCommandType.RECEIVE, 7)
  else if strStartsWith line "PURGE" then some (SQSCommandType.PURGE, 5)
  else none

/-- Match of `commandBlockPattern` on a trimmed line: the keyword, at
least one whitespace character, then the first non-whitespace run as the
captured target. -/
def parseHeader (line : String) : Option (SQSCommandType × String) :=
  match keywordOf line with
  | none => none
  | some (ty, n) =>
    match line.data.drop n with
    | [] => none
    | c :: rest =>
      if c.isWhitespace then
        if (rest.dropWhile Char.isWhitespace).takeWhile (fun ch => !ch.isWhitespace) = [] then
          none
        else
          some (ty, String.mk ((rest.dropWhile Char.isWhitespace).takeWhile
            (fun ch => !ch.isWhitespace)))
      else none

/-- Match of `/^KEY\s*:\s*(.+)$/` on a trimmed line followed by the
source's `.trim()` on the capture.  On a trimmed line the remainder
after the colon cannot be all-whitespace unless it is empty, so the
greedy `\s*` never backtracks and the capture is the remainder with its
leading whitespace removed. -/
def matchParam (key : String) (line : String) : Option String :=
  if strStartsWith line key then
    match (line.data.drop key.length).dropWhile Char.isWhitespace with
    | ':' :: rest =>
      if rest.dropWhile Char.isWhitespace = [] then none
      else some (jsTrim (String.mk (rest.dropWhile Char.isWhitespace)))
    | _ => none
  else none

/-- Match of `/^KEY\s*:\s*(\d+)$/` on a trimmed line, with the capture
read by `parseInt(−, 10)`. -/
def matchNatParam (key : String) (line : String) : Option Nat :=
  if strStartsWith line key then
    match (line.data.drop key.length).dropWhile Char.isWhitespace with
    | ':' :: rest =>
      if rest.dropWhile Char.isWhitespace ≠ [] ∧
          (rest.dropWhile Char.isWhitespace).all Char.isDigit then
        some (digitsToNat (rest.dropWhile Char.isWhitespace))
      else none
    | _ => none
  else none

/-! ## The scanner -/

/-- The mutable locals of the `for` loop in `parseSQSCommands`. -/
structure ScanState where
  commands : List SQSCommand
  currentCommand : Option SQSCommand
  commandBodyStartLine : Int
  commandBodyLines : List String
  inJsonBody : Bool
  jsonStartLine : Int
  bracesCount : Int

def initState : ScanState :=
  { commands := [], currentCommand := none, commandBodyStartLine := -1,
    commandBodyLines := [], inJsonBody := false, jsonStartLine := -1, bracesCount := 0 }

/-- `config.get(key) || fallback` for the two default settings: an unset
setting (modelled as `""`) and the empty string both fall back. -/
def orDefault (v fb : String) : String :=
  if v = "" then fb else v

def newCommand (d1 d2 : String) (ty : SQSCommandType) (url : String) : SQSCommand :=
  { type := ty, queueUrl := url,
    profile := orDefault d1 "default", region := orDefault d2 "us-east-1" }

/-- `finalizeCommand`'s body-parse step: for `SEND` commands with no
body yet and pending lines, try `JSON.parse` on the joined lines (a
thrown error leaves the body absent).  The JS truthiness test
`!command.messageBody` coincides with absence here because every stored
body is a parsed object (always truthy). -/
def attachBody (c : SQSCommand) (bodyLines : List String) : SQSCommand :=
  if c.type = SQSCommandType.SEND ∧ c.messageBody.isNone ∧ bodyLines ≠ [] then
    match jsonParse (joinNL bodyLines) with
    | some v => { c with messageBody := some v }
    | none => c
  else c

/-- `finalizeCommand`: set the source range (columns 0 and 1000 as in
the source) and attempt the pending body parse. -/
def finalizeCommand (c : SQSCommand) (startLine endLine : Int) (bodyLines : List String) :
    SQSCommand :=
  attachBody { c with range := some ⟨startLine, 0, endLine, 1000⟩ } bodyLines

/-- The guarded seal-and-append step
`if (currentCommand && currentCommand.type && currentCommand.queueUrl) { finalize; push; reset bodyLines }`
(the `type` field, a non-empty keyword string, is always truthy). -/
def sealIfOpen (s : ScanState) (endLine : Int) : ScanState :=
  match s.currentCommand with
  | some c =>
    if c.queueUrl ≠ "" then
      { s with
        commands := s.commands ++ [finalizeCommand c s.commandBodyStartLine endLine s.commandBodyLines],
        commandBodyLines := [] }
    else s
  | none => s

/-- The `inJsonBody` branch: append the trimmed line, count its braces,
and on balance attempt `JSON.parse` of the joined lines. -/
def braceNet (s : String) : Int :=
  s.data.foldl (fun n c => if c = '{' then n + 1 else if c = '}' then n - 1 else n) 0

def tryParseBody (c : SQSCommand) (bodyLines : List String) : SQSCommand :=
  if c.type = SQSCommandType.SEND then
    match jsonParse (joinNL bodyLines) with
    | some v => { c with messageBody := some v }
    | none => c
  else c

def jsonBodyStep (line : String) (s : ScanState) : ScanState :=
  if s.bracesCount + braceNet line = 0 then
    { s with commandBodyLines := s.commandBodyLines ++ [line],
             bracesCount := s.bracesCount + braceNet line,
             inJsonBody := false,
             currentCommand :=
               match s.currentCommand with
               | some c => some (tryParseBody c (s.commandBodyLines ++ [line]))
               | none => none }
  else
    { s with commandBodyLines := s.commandBodyLines ++ [line],
             bracesCount := s.bracesCount + braceNet line }

/-- The tail of the parameter branch: the `SEND` JSON-body start, then
the `###` delimiter test (unreachable in fact — a line trimming to
`###` is already consumed by the comment check), then the permissive
fall-through. -/
def stepAfterParams (i : Int) (line : String) (c : SQSCommand) (s : ScanState) : ScanState :=
  if c.type = SQSCommandType.SEND ∧ strStartsWith line "\x7b" then
    { s with inJsonBody := true, jsonStartLine := i, bracesCount := 1,
             commandBodyLines := s.commandBodyLines ++ [line] }
  else if line = "###" then
    { sealIfOpen s i with currentCommand := none, commandBodyStartLine := -1,
                          inJsonBody := false, jsonStartLine := -1 }
  else s

/-- The `RECEIVE`-gated numeric parameters, then `stepAfterParams`. -/
def stepNumericParams (i : Int) (line : String) (c : SQSCommand) (s : ScanState) : ScanState :=
  if c.type = SQSCommandType.RECEIVE then
    match matchNatParam "max-messages" line with
    | some n => { s with currentCommand := some { c with maxMessages := some n } }
    | none =>
      match matchNatParam "visibility-timeout" line with
      | some n => { s with currentCommand := some { c with visibilityTimeout := some n } }
      | none =>
        match matchNatParam "wait-time" line with
        | some n => { s with currentCommand := some { c with waitTimeSeconds := some n } }
        | none => stepAfterParams i line c s
  else stepAfterParams i line c s

/-- The header branch: seal any open command at the previous line, then
open a fresh builder at line `i`. -/
def stepHeader (d1 d2 : String) (i : Int) (ty : SQSCommandType) (url : String) (s : ScanState) :
    ScanState :=
  { sealIfOpen s (i - 1) with
    currentCommand := some (newCommand d1 d2 ty url),
    commandBodyStartLine := i, inJsonBody := false, jsonStartLine := -1 }

/-- The parameter branch (open command, not inside a JSON body):
`profile`, `region`, then the rest of the chain. -/
def stepParamLine (i : Int) (line : String) (c : SQSCommand) (s : ScanState) : ScanState :=
  match matchParam "profile" line with
  | some v => { s with currentCommand := some { c with profile := v } }
  | none =>
    match matchParam "region" line with
    | some v => { s with currentCommand := some { c with region := v } }
    | none => stepNumericParams i line c s

/-- One iteration of the scan loop on the already-trimmed line. -/
def stepTrimmed (d1 d2 : String) (i : Int) (line : String) (s : ScanState) : ScanState :=
  if line = "" ∨ strStartsWith line "#" then s
  else
    match parseHeader line with
    | some (ty, url) => stepHeader d1 d2 i ty url s
    | none =>
      match s.currentCommand, s.inJsonBody with
      | some c, false => stepParamLine i line c s
      | _, _ => if s.inJsonBody then jsonBodyStep line s else s

/-- One iteration of the scan loop on line `i` (`rawLine` untrimmed). -/
def stepLine (d1 d2 : String) (i : Int) (rawLine : String) (s : ScanState) : ScanState :=
  stepTrimmed d1 d2 i (jsTrim rawLine) s

def scanFrom (d1 d2 : String) (i : Int) (lines : List String) (s : ScanState) : ScanState :=
  match lines with
  | [] => s
  | l :: ls => scanFrom d1 d2 (i + 1) ls (stepLine d1 d2 i l s)

/-- The whole loop plus the end-of-document seal. -/
def parseSQSLines (d1 d2 : String) (lines : List String) : List SQSCommand :=
  (sealIfOpen (scanFrom d1 d2 0 lines initState) ((lines.length : Int) - 1)).commands

/-- `parseSQSCommands(document)` with the two configuration defaults
abstracted as parameters. -/
def parseSQSCommands (text : String) (d1 d2 : String) : List SQSCommand :=
  parseSQSLines d1 d2 (splitLines text)

/-! ## Basic lemmas about the string helpers and pattern matchers -/

lemma strStartsWith_char_iff (s : String) (c : Char) (t : List Char) (hs : s.data = c :: t)
    (c' : Char) (rest : String) (hk : rest.data = [c']) :
    strStartsWith s rest = true ↔ c = c' := by
  unfold strStartsWith
  rw [hs, hk]
  simp [List.isPrefixOf, BEq.beq]
  exact comm

lemma strStartsWith_false_of_head_ne (s k : String) (c : Char) (t : List Char)
    (c' : Char) (t' : List Char) (hs : s.data = c :: t) (hk : k.data = c' :: t')
    (h : c' ≠ c) : strStartsWith s k = false := by
  unfold strStartsWith
  rw [hs, hk]
  simp [List.isPrefixOf]
  intro hq
  exact absurd hq h

lemma s_ne_empty_of_data (s : String) (c : Char) (t : List Char) (hs : s.data = c :: t) :
    s ≠ "" := by
  intro h
  rw [h] at hs
  simp at hs

lemma data_of_startsWith_brace (s : String) (h : strStartsWith s "\x7b" = true) :
    ∃ t, s.data = '{' :: t := by
  unfold strStartsWith at h
  rcases hd : s.data with _ | ⟨c, t⟩ <;> rw [hd] at h
  · simp [List.isPrefixOf] at h
  · refine ⟨t, ?_⟩
    have : ("\x7b" : String).data = ['{'] := rfl
    rw [this] at h
    simp [List.isPrefixOf] at h
    rw [h]

lemma keywordOf_none_of_head (line : String) (c : Char) (t : List Char)
    (hl : line.data = c :: t) (h1 : c ≠ 'S') (h2 : c ≠ 'R') (h3 : c ≠ 'P') :
    keywordOf line = none := by
  unfold keywordOf
  rw [strStartsWith_false_of_head_ne line "SEND" c t 'S' ['E', 'N', 'D'] hl rfl (Ne.symm h1)]
  rw [strStartsWith_false_of_head_ne line "RECEIVE" c t 'R' ['E', 'C', 'E', 'I', 'V', 'E'] hl rfl
    (Ne.symm h2)]
  rw [strStartsWith_false_of_head_ne line "PURGE" c t 'P' ['U', 'R', 'G', 'E'] hl rfl (Ne.symm h3)]
  rfl

lemma parseHeader_none_of_head (line : String) (c : Char) (t : List Char)
    (hl : line.data = c :: t) (h1 : c ≠ 'S') (h2 : c ≠ 'R') (h3 : c ≠ 'P') :
    parseHeader line = none := by
  unfold parseHeader
  rw [keywordOf_none_of_head line c t hl h1 h2 h3]

lemma matchParam_none_of_head (key line : String) (c : Char) (t : List Char)
    (c' : Char) (t' : List Char) (hl : line.data = c :: t) (hk : key.data = c' :: t')
    (h : c' ≠ c) : matchParam key line = none := by
  unfold matchParam
  rw [strStartsWith_false_of_head_ne line key c t c' t' hl hk h]
  rfl

lemma matchNatParam_none_of_head (key line : String) (c : Char) (t : List Char)
    (c' : Char) (t' : List Char) (hl : line.data = c :: t) (hk : key.data = c' :: t')
    (h : c' ≠ c) : matchNatParam key line = none := by
  unfold matchNatParam
  rw [strStartsWith_false_of_head_ne line key c t c' t' hl hk h]
  rfl

lemma mk_ne_empty (l : List Char) (h : l ≠ []) : String.mk l ≠ "" :=
  fun he => h (congrArg String.data he)

lemma mem_dropWhile_of_not {α : Type} (p : α → Bool) (l : List α) (x : α)
    (hx : x ∈ l) (hp : p x = false) : x ∈ l.dropWhile p := by
  induction l with
  | nil => simp at hx
  | cons a t ih =>
    by_cases ha : p a = true
    · rw [List.dropWhile_cons_of_pos ha]
      rcases List.mem_cons.mp hx with rfl | hx2
      · rw [hp] at ha
        exact absurd ha (by simp)
      · exact ih hx2
    · rw [List.dropWhile_cons_of_neg ha]
      exact hx

lemma jsTrimList_ne_nil (l : List Char) (x : Char) (hx : x ∈ l)
    (hp : x.isWhitespace = false) : jsTrimList l ≠ [] := by
  unfold jsTrimList
  intro h
  have h2 : (l.dropWhile Char.isWhitespace).reverse.dropWhile Char.isWhitespace = [] := by
    have := congrArg List.reverse h
    simpa using this
  have hall := List.dropWhile_eq_nil_iff.mp h2
  have hx1 : x ∈ l.dropWhile Char.isWhitespace := mem_dropWhile_of_not _ l x hx hp
  have hx2 : x ∈ (l.dropWhile Char.isWhitespace).reverse := by simpa using hx1
  have := hall x hx2
  simp [hp] at this

lemma dropWhile_head_not {α : Type} (p : α → Bool) (l : List α) (c : α) (w : List α)
    (h : l.dropWhile p = c :: w) : p c = false := by
  induction l with
  | nil => simp at h
  | cons a t ih =>
    by_cases ha : p a = true
    · rw [List.dropWhile_cons_of_pos ha] at h
      exact ih h
    · rw [List.dropWhile_cons_of_neg ha] at h
      obtain ⟨rfl, -⟩ := List.cons.inj h
      simpa using ha

lemma matchParam_ne_empty (key line : String) (v : String) (h : matchParam key line = some v) :
    v ≠ "" := by
  unfold matchParam at h
  split at h
  · split at h
    · split at h
      · exact Option.noConfusion h
      · rename_i rest heqm hne
        obtain rfl : jsTrim (String.mk (rest.dropWhile Char.isWhitespace)) = v :=
          Option.some.inj h
        rcases hv : rest.dropWhile Char.isWhitespace with _ | ⟨d0, w⟩
        · exact absurd hv hne
        · have hd0 : d0.isWhitespace = false := dropWhile_head_not _ rest d0 w hv
          unfold jsTrim
          exact mk_ne_empty _ (jsTrimList_ne_nil (d0 :: w) d0 (by simp) hd0)
    · exact Option.noConfusion h
  · exact Option.noConfusion h

lemma parseHeader_target_ne (line : String) (ty : SQSCommandType) (u : String)
    (h : parseHeader line = some (ty, u)) : u ≠ "" := by
  unfold parseHeader at h
  split at h
  · exact Option.noConfusion h
  · split at h
    · exact Option.noConfusion h
    · split at h
      · split at h
        · exact Option.noConfusion h
        · rename_i hne
          obtain ⟨-, rfl⟩ : _ ∧ String.mk _ = u := Prod.mk.inj (Option.some.inj h)
          exact mk_ne_empty _ hne
      · exact Option.noConfusion h

lemma orDefault_ne_empty (v fb : String) (hfb : fb ≠ "") : orDefault v fb ≠ "" := by
  unfold orDefault
  split
  · exact hfb
  · assumption

/-! ## Field preservation through `attachBody` / `finalizeCommand` -/

lemma attachBody_type (c : SQSCommand) (L : List String) : (attachBody c L).type = c.type := by
  unfold attachBody
  split
  · cases jsonParse (joinNL L) <;> rfl
  · rfl

lemma attachBody_queueUrl (c : SQSCommand) (L : List String) :
    (attachBody c L).queueUrl = c.queueUrl := by
  unfold attachBody
  split
  · cases jsonParse (joinNL L) <;> rfl
  · rfl

lemma attachBody_profile (c : SQSCommand) (L : List String) :
    (attachBody c L).profile = c.profile := by
  unfold attachBody
  split
  · cases jsonParse (joinNL L) <;> rfl
  · rfl

lemma attachBody_region (c : SQSCommand) (L : List String) :
    (attachBody c L).region = c.region := by
  unfold attachBody
  split
  · cases jsonParse (joinNL L) <;> rfl
  · rfl

lemma attachBody_maxMessages (c : SQSCommand) (L : List String) :
    (attachBody c L).maxMessages = c.maxMessages := by
  unfold attachBody
  split
  · cases jsonParse (joinNL L) <;> rfl
  · rfl

lemma attachBody_visibilityTimeout (c : SQSCommand) (L : List String) :
    (attachBody c L).visibilityTimeout = c.visibilityTimeout := by
  unfold attachBody
  split
  · cases jsonParse (joinNL L) <;> rfl
  · rfl

lemma attachBody_waitTimeSeconds (c : SQSCommand) (L : List String) :
    (attachBody c L).waitTimeSeconds = c.waitTimeSeconds := by
  unfold attachBody
  split
  · cases jsonParse (joinNL L) <;> rfl
  · rfl

lemma attachBody_range (c : SQSCommand) (L : List String) :
    (attachBody c L).range = c.range := by
  unfold attachBody
  split
  · cases jsonParse (joinNL L) <;> rfl
  · rfl

lemma attachBody_of_none (c : SQSCommand) (L : List String) (hty : c.type = SQSCommandType.SEND)
    (hmb : c.messageBody = none) (hL : L ≠ []) :
    (attachBody c L).messageBody = jsonParse (joinNL L) := by
  unfold attachBody
  rw [if_pos ⟨hty, by rw [hmb]; rfl, hL⟩]
  rcases jsonParse (joinNL L) with _ | v
  · exact hmb
  · rfl

lemma attachBody_of_some (c : SQSCommand) (L : List String) (v : Json)
    (hmb : c.messageBody = some v) : (attachBody c L).messageBody = some v := by
  unfold attachBody
  rw [if_neg]
  · exact hmb
  · intro hcond
    have := hcond.2.1
    rw [hmb] at this
    simp at this

lemma finalizeCommand_range (c : SQSCommand) (a b : Int) (L : List String) :
    (finalizeCommand c a b L).range = some ⟨a, 0, b, 1000⟩ := by
  unfold finalizeCommand
  rw [attachBody_range]

lemma finalizeCommand_type (c : SQSCommand) (a b : Int) (L : List String) :
    (finalizeCommand c a b L).type = c.type := by
  unfold finalizeCommand
  rw [attachBody_type]

lemma finalizeCommand_queueUrl (c : SQSCommand) (a b : Int) (L : List String) :
    (finalizeCommand c a b L).queueUrl = c.queueUrl := by
  unfold finalizeCommand
  rw [attachBody_queueUrl]

lemma finalizeCommand_profile (c : SQSCommand) (a b : Int) (L : List String) :
    (finalizeCommand c a b L).profile = c.profile := by
  unfold finalizeCommand
  rw [attachBody_profile]

lemma finalizeCommand_region (c : SQSCommand) (a b : Int) (L : List String) :
    (finalizeCommand c a b L).region = c.region := by
  unfold finalizeCommand
  rw [attachBody_region]

lemma finalizeCommand_maxMessages (c : SQSCommand) (a b : Int) (L : List String) :
    (finalizeCommand c a b L).maxMessages = c.maxMessages := by
  unfold finalizeCommand
  rw [attachBody_maxMessages]

lemma finalizeCommand_visibilityTimeout (c : SQSCommand) (a b : Int) (L : List String) :
    (finalizeCommand c a b L).visibilityTimeout = c.visibilityTimeout := by
  unfold finalizeCommand
  rw [attachBody_visibilityTimeout]

lemma finalizeCommand_waitTimeSeconds (c : SQSCommand) (a b : Int) (L : List String) :
    (finalizeCommand c a b L).waitTimeSeconds = c.waitTimeSeconds := by
  unfold finalizeCommand
  rw [attachBody_waitTimeSeconds]

lemma finalizeCommand_body_of_none (c : SQSCommand) (a b : Int) (L : List String)
    (hty : c.type = SQSCommandType.SEND) (hmb : c.messageBody = none) (hL : L ≠ []) :
    (finalizeCommand c a b L).messageBody = jsonParse (joinNL L) := by
  unfold finalizeCommand
  exact attachBody_of_none _ L hty hmb hL

lemma finalizeCommand_body_of_some (c : SQSCommand) (a b : Int) (L : List String) (v : Json)
    (hmb : c.messageBody = some v) : (finalizeCommand c a b L).messageBody = some v := by
  unfold finalizeCommand
  exact attachBody_of_some _ L v hmb

/-! ## Branch characterizations of the scanner step -/

lemma stepTrimmed_skip (d1 d2 : String) (i : Int) (line : String) (s : ScanState)
    (h : line = "" ∨ strStartsWith line "#" = true) :
    stepTrimmed d1 d2 i line s = s := by
  unfold stepTrimmed
  rw [if_pos h]

lemma stepTrimmed_header (d1 d2 : String) (i : Int) (line : String) (s : ScanState)
    (ty : SQSCommandType) (url : String)
    (hns : ¬(line = "" ∨ strStartsWith line "#" = true))
    (hh : parseHeader line = some (ty, url)) :
    stepTrimmed d1 d2 i line s = stepHeader d1 d2 i ty url s := by
  unfold stepTrimmed
  rw [if_neg hns, hh]

lemma stepTrimmed_param (d1 d2 : String) (i : Int) (line : String) (s : ScanState)
    (c : SQSCommand) (hns : ¬(line = "" ∨ strStartsWith line "#" = true))
    (hh : parseHeader line = none) (hc : s.currentCommand = some c)
    (hj : s.inJsonBody = false) :
    stepTrimmed d1 d2 i line s = stepParamLine i line c s := by
  unfold stepTrimmed
  rw [if_neg hns, hh, hc, hj]

lemma stepTrimmed_json (d1 d2 : String) (i : Int) (line : String) (s : ScanState)
    (hns : ¬(line = "" ∨ strStartsWith line "#" = true))
    (hh : parseHeader line = none) (hj : s.inJsonBody = true) :
    stepTrimmed d1 d2 i line s = jsonBodyStep line s := by
  unfold stepTrimmed
  rcases hc : s.currentCommand with _ | c <;> rw [if_neg hns, hh, hj] <;> rfl

lemma stepTrimmed_idle (d1 d2 : String) (i : Int) (line : String) (s : ScanState)
    (hns : ¬(line = "" ∨ strStartsWith line "#" = true))
    (hh : parseHeader line = none) (hc : s.currentCommand = none)
    (hj : s.inJsonBody = false) :
    stepTrimmed d1 d2 i line s = s := by
  unfold stepTrimmed
  rw [if_neg hns, hh, hc, hj]
  rfl

lemma stepParamLine_profile (i : Int) (line : String) (c : SQSCommand) (s : ScanState)
    (v : String) (hp : matchParam "profile" line = some v) :
    stepParamLine i line c s = { s with currentCommand := some { c with profile := v } } := by
  unfold stepParamLine
  rw [hp]

lemma stepParamLine_region (i : Int) (line : String) (c : SQSCommand) (s : ScanState)
    (v : String) (hp : matchParam "profile" line = none)
    (hr : matchParam "region" line = some v) :
    stepParamLine i line c s = { s with currentCommand := some { c with region := v } } := by
  unfold stepParamLine
  rw [hp, hr]

lemma stepParamLine_rest (i : Int) (line : String) (c : SQSCommand) (s : ScanState)
    (hp : matchParam "profile" line = none) (hr : matchParam "region" line = none) :
    stepParamLine i line c s = stepNumericParams i line c s := by
  unfold stepParamLine
  rw [hp, hr]

lemma stepNumericParams_other (i : Int) (line : String) (c : SQSCommand) (s : ScanState)
    (h : ¬ c.type = SQSCommandType.RECEIVE) :
    stepNumericParams i line c s = stepAfterParams i line c s := by
  unfold stepNumericParams
  rw [if_neg h]

lemma stepNumericParams_nomatch (i : Int) (line : String) (c : SQSCommand) (s : ScanState)
    (h1 : matchNatParam "max-messages" line = none)
    (h2 : matchNatParam "visibility-timeout" line = none)
    (h3 : matchNatParam "wait-time" line = none) :
    stepNumericParams i line c s = stepAfterParams i line c s := by
  unfold stepNumericParams
  split
  · rw [h1, h2, h3]
  · rfl

lemma stepAfterParams_brace (i : Int) (line : String) (c : SQSCommand) (s : ScanState)
    (hty : c.type = SQSCommandType.SEND) (hb : strStartsWith line "\x7b" = true) :
    stepAfterParams i line c s =
      { s with inJsonBody := true, jsonStartLine := i, bracesCount := 1,
               commandBodyLines := s.commandBodyLines ++ [line] } := by
  unfold stepAfterParams
  rw [if_pos ⟨hty, hb⟩]

lemma stepAfterParams_inert (i : Int) (line : String) (c : SQSCommand) (s : ScanState)
    (h : ¬(c.type = SQSCommandType.SEND ∧ strStartsWith line "\x7b" = true))
    (hd : line ≠ "###") :
    stepAfterParams i line c s = s := by
  unfold stepAfterParams
  rw [if_neg h, if_neg hd]

lemma jsonBodyStep_zero (line : String) (s : ScanState)
    (h : s.bracesCount + braceNet line = 0) :
    jsonBodyStep line s =
      { s with commandBodyLines := s.commandBodyLines ++ [line],
               bracesCount := s.bracesCount + braceNet line,
               inJsonBody := false,
               currentCommand :=
                 match s.currentCommand with
                 | some c => some (tryParseBody c (s.commandBodyLines ++ [line]))
                 | none => none } := by
  unfold jsonBodyStep
  rw [if_pos h]

lemma jsonBodyStep_pos (line : String) (s : ScanState)
    (h : ¬ s.bracesCount + braceNet line = 0) :
    jsonBodyStep line s =
      { s with commandBodyLines := s.commandBodyLines ++ [line],
               bracesCount := s.bracesCount + braceNet line } := by
  unfold jsonBodyStep
  rw [if_neg h]

/-- A trimmed line equal to `###` always satisfies the comment test, so
the delimiter branch of `stepAfterParams` is unreachable from `stepLine`. -/
lemma delim_is_comment (line : String) (h : line = "###") :
    strStartsWith line "#" = true := by
  subst h
  rfl

lemma sealIfOpen_of_none (s : ScanState) (e : Int) (hc : s.currentCommand = none) :
    sealIfOpen s e = s := by
  unfold sealIfOpen
  rw [hc]

lemma sealIfOpen_of_some (s : ScanState) (e : Int) (c : SQSCommand)
    (hc : s.currentCommand = some c) (hg : c.queueUrl ≠ "") :
    sealIfOpen s e =
      { s with
        commands := s.commands ++
          [finalizeCommand c s.commandBodyStartLine e s.commandBodyLines],
        commandBodyLines := [] } := by
  unfold sealIfOpen
  simp only [hc]
  rw [if_pos hg]

/-! ## A generic invariant of the scan

`P` constrains the open builder, `Q` the sealed commands; the closure
hypotheses cover every mutation the loop can perform. -/

def StateOK (P Q : SQSCommand → Prop) (s : ScanState) : Prop :=
  (∀ c ∈ s.commands, Q c) ∧ (∀ c, s.currentCommand = some c → P c)

section Invariant

variable {d1 d2 : String} {P Q : SQSCommand → Prop}

lemma sealIfOpen_StateOK
    (hFin : ∀ c (a b : Int) L, P c → c.queueUrl ≠ "" → Q (finalizeCommand c a b L))
    (s : ScanState) (e : Int) (h : StateOK P Q s) : StateOK P Q (sealIfOpen s e) := by
  rcases hc : s.currentCommand with _ | c
  · rw [sealIfOpen_of_none s e hc]
    exact h
  · by_cases hg : c.queueUrl ≠ ""
    · rw [sealIfOpen_of_some s e c hc hg]
      refine ⟨?_, ?_⟩
      · intro x hx
        have hx1 : x ∈ s.commands ++
            [finalizeCommand c s.commandBodyStartLine e s.commandBodyLines] := hx
        rcases List.mem_append.mp hx1 with hx2 | hx2
        · exact h.1 x hx2
        · obtain rfl := List.mem_singleton.mp hx2
          exact hFin c _ _ _ (h.2 c hc) hg
      · intro x hx
        exact h.2 x hx
    · unfold sealIfOpen
      simp only [hc]
      rw [if_neg hg]
      exact h

lemma stepTrimmed_StateOK
    (hFin : ∀ c (a b : Int) L, P c → c.queueUrl ≠ "" → Q (finalizeCommand c a b L))
    (hNew : ∀ ty url, url ≠ "" → P (newCommand d1 d2 ty url))
    (hProf : ∀ c v, P c → v ≠ "" → P { c with profile := v })
    (hReg : ∀ c v, P c → v ≠ "" → P { c with region := v })
    (hMax : ∀ c n, P c → c.type = SQSCommandType.RECEIVE → P { c with maxMessages := some n })
    (hVis : ∀ c n, P c → c.type = SQSCommandType.RECEIVE →
      P { c with visibilityTimeout := some n })
    (hWait : ∀ c n, P c → c.type = SQSCommandType.RECEIVE →
      P { c with waitTimeSeconds := some n })
    (hBody : ∀ c v, P c → P { c with messageBody := some v })
    (i : Int) (line : String) (s : ScanState) (h : StateOK P Q s) :
    StateOK P Q (stepTrimmed d1 d2 i line s) := by
  by_cases hns : line = "" ∨ strStartsWith line "#" = true
  · rw [stepTrimmed_skip d1 d2 i line s hns]
    exact h
  · rcases hh : parseHeader line with _ | ⟨ty, url⟩
    · -- not a header line
      rcases hc : s.currentCommand with _ | c
      · rcases hj : s.inJsonBody with _ | _
        · rw [stepTrimmed_idle d1 d2 i line s hns hh hc hj]
          exact h
        · rw [stepTrimmed_json d1 d2 i line s hns hh hj]
          by_cases hz : s.bracesCount + braceNet line = 0
          · rw [jsonBodyStep_zero line s hz]
            refine ⟨h.1, ?_⟩
            intro x hx
            rw [hc] at hx
            simp at hx
          · rw [jsonBodyStep_pos line s hz]
            exact ⟨h.1, fun x hx => h.2 x hx⟩
      · rcases hj : s.inJsonBody with _ | _
        · -- parameter branch
          rw [stepTrimmed_param d1 d2 i line s c hns hh hc hj]
          have hPc : P c := h.2 c hc
          rcases hp : matchParam "profile" line with _ | v
          · rcases hr : matchParam "region" line with _ | v
            · rw [stepParamLine_rest i line c s hp hr]
              by_cases hty : c.type = SQSCommandType.RECEIVE
              · unfold stepNumericParams
                rw [if_pos hty]
                rcases h1 : matchNatParam "max-messages" line with _ | n
                · rcases h2 : matchNatParam "visibility-timeout" line with _ | n
                  · rcases h3 : matchNatParam "wait-time" line with _ | n
                    · -- fall through to stepAfterParams
                      by_cases hbr : c.type = SQSCommandType.SEND ∧ strStartsWith line "\x7b" = true
                      · rw [stepAfterParams_brace i line c s hbr.1 hbr.2]
                        exact ⟨h.1, fun x hx => h.2 x hx⟩
                      · have hd : line ≠ "###" := by
                          intro hl
                          exact hns (Or.inr (delim_is_comment line hl))
                        rw [stepAfterParams_inert i line c s hbr hd]
                        exact h
                    · refine ⟨h.1, ?_⟩
                      intro x hx
                      obtain rfl := Option.some.inj hx
                      exact hWait c n hPc hty
                  · refine ⟨h.1, ?_⟩
                    intro x hx
                    obtain rfl := Option.some.inj hx
                    exact hVis c n hPc hty
                · refine ⟨h.1, ?_⟩
                  intro x hx
                  obtain rfl := Option.some.inj hx
                  exact hMax c n hPc hty
              · rw [stepNumericParams_other i line c s hty]
                by_cases hbr : c.type = SQSCommandType.SEND ∧ strStartsWith line "\x7b" = true
                · rw [stepAfterParams_brace i line c s hbr.1 hbr.2]
                  exact ⟨h.1, fun x hx => h.2 x hx⟩
                · have hd : line ≠ "###" := by
                    intro hl
                    exact hns (Or.inr (delim_is_comment line hl))
                  rw [stepAfterParams_inert i line c s hbr hd]
                  exact h
            · rw [stepParamLine_region i line c s v hp hr]
              refine ⟨h.1, ?_⟩
              intro x hx
              obtain rfl := Option.some.inj hx
              exact hReg c v hPc (matchParam_ne_empty _ line v hr)
          · rw [stepParamLine_profile i line c s v hp]
            refine ⟨h.1, ?_⟩
            intro x hx
            obtain rfl := Option.some.inj hx
            exact hProf c v hPc (matchParam_ne_empty _ line v hp)
        · -- JSON body branch
          rw [stepTrimmed_json d1 d2 i line s hns hh hj]
          by_cases hz : s.bracesCount + braceNet line = 0
          · rw [jsonBodyStep_zero line s hz]
            refine ⟨h.1, ?_⟩
            intro x hx
            rw [hc] at hx
            simp only [Option.some.injEq] at hx
            subst hx
            have hPc : P c := h.2 c hc
            unfold tryParseBody
            split
            · rcases jsonParse (joinNL (s.commandBodyLines ++ [line])) with _ | v
              · exact hPc
              · exact hBody c v hPc
            · exact hPc
          · rw [jsonBodyStep_pos line s hz]
            exact ⟨h.1, fun x hx => h.2 x hx⟩
    · -- header line
      rw [stepTrimmed_header d1 d2 i line s ty url hns hh]
      unfold stepHeader
      have hseal := sealIfOpen_StateOK hFin s (i - 1) h
      refine ⟨hseal.1, ?_⟩
      intro x hx
      simp only [Option.some.injEq] at hx
      subst hx
      exact hNew ty url (parseHeader_target_ne line ty url hh)

lemma scanFrom_StateOK
    (hFin : ∀ c (a b : Int) L, P c → c.queueUrl ≠ "" → Q (finalizeCommand c a b L))
    (hNew : ∀ ty url, url ≠ "" → P (newCommand d1 d2 ty url))
    (hProf : ∀ c v, P c → v ≠ "" → P { c with profile := v })
    (hReg : ∀ c v, P c → v ≠ "" → P { c with region := v })
    (hMax : ∀ c n, P c → c.type = SQSCommandType.RECEIVE → P { c with maxMessages := some n })
    (hVis : ∀ c n, P c → c.type = SQSCommandType.RECEIVE →
      P { c with visibilityTimeout := some n })
    (hWait : ∀ c n, P c → c.type = SQSCommandType.RECEIVE →
      P { c with waitTimeSeconds := some n })
    (hBody : ∀ c v, P c → P { c with messageBody := some v })
    (lines : List String) : ∀ (i : Int) (s : ScanState), StateOK P Q s →
    StateOK P Q (scanFrom d1 d2 i lines s) := by
  induction lines with
  | nil => intro i s h; exact h
  | cons l ls ih =>
    intro i s h
    exact ih (i + 1) _
      (stepTrimmed_StateOK hFin hNew hProf hReg hMax hVis hWait hBody i (jsTrim l) s h)

lemma parseSQSLines_StateOK
    (hFin : ∀ c (a b : Int) L, P c → c.queueUrl ≠ "" → Q (finalizeCommand c a b L))
    (hNew : ∀ ty url, url ≠ "" → P (newCommand d1 d2 ty url))
    (hProf : ∀ c v, P c → v ≠ "" → P { c with profile := v })
    (hReg : ∀ c v, P c → v ≠ "" → P { c with region := v })
    (hMax : ∀ c n, P c → c.type = SQSCommandType.RECEIVE → P { c with maxMessages := some n })
    (hVis : ∀ c n, P c → c.type = SQSCommandType.RECEIVE →
      P { c with visibilityTimeout := some n })
    (hWait : ∀ c n, P c → c.type = SQSCommandType.RECEIVE →
      P { c with waitTimeSeconds := some n })
    (hBody : ∀ c v, P c → P { c with messageBody := some v })
    (lines : List String) (cmd : SQSCommand) (hmem : cmd ∈ parseSQSLines d1 d2 lines) :
    Q cmd := by
  have hinit : StateOK P Q initState := by
    refine ⟨?_, ?_⟩
    · intro c hc
      simp [initState] at hc
    · intro c hc
      simp [initState] at hc
  have hscan := scanFrom_StateOK hFin hNew hProf hReg hMax hVis hWait hBody lines 0 initState hinit
  have hfinal := sealIfOpen_StateOK hFin _ ((lines.length : Int) - 1) hscan
  exact hfinal.1 cmd hmem

end Invariant

/-! ## Scan decomposition and block lemmas -/

lemma scanFrom_append (d1 d2 : String) (xs : List String) :
    ∀ (ys : List String) (i : Int) (s : ScanState),
    scanFrom d1 d2 i (xs ++ ys) s =
      scanFrom d1 d2 (i + (xs.length : Int)) ys (scanFrom d1 d2 i xs s) := by
  induction xs with
  | nil =>
    intro ys i s
    simp [scanFrom]
  | cons x xs ih =>
    intro ys i s
    show scanFrom d1 d2 (i + 1) (xs ++ ys) (stepLine d1 d2 i x s) = _
    rw [ih ys (i + 1) (stepLine d1 d2 i x s)]
    congr 1
    simp [List.length_cons]
    omega

lemma scanFrom_cons (d1 d2 : String) (i : Int) (l : String) (ls : List String) (s : ScanState) :
    scanFrom d1 d2 i (l :: ls) s = scanFrom d1 d2 (i + 1) ls (stepLine d1 d2 i l s) := rfl

lemma tryParseBody_type (c : SQSCommand) (L : List String) :
    (tryParseBody c L).type = c.type := by
  unfold tryParseBody
  split
  · cases jsonParse (joinNL L) <;> rfl
  · rfl

lemma tryParseBody_queueUrl (c : SQSCommand) (L : List String) :
    (tryParseBody c L).queueUrl = c.queueUrl := by
  unfold tryParseBody
  split
  · cases jsonParse (joinNL L) <;> rfl
  · rfl

lemma tryParseBody_profile (c : SQSCommand) (L : List String) :
    (tryParseBody c L).profile = c.profile := by
  unfold tryParseBody
  split
  · cases jsonParse (joinNL L) <;> rfl
  · rfl

lemma tryParseBody_region (c : SQSCommand) (L : List String) :
    (tryParseBody c L).region = c.region := by
  unfold tryParseBody
  split
  · cases jsonParse (joinNL L) <;> rfl
  · rfl

lemma tryParseBody_body_of_none (c : SQSCommand) (L : List String)
    (hty : c.type = SQSCommandType.SEND) (hmb : c.messageBody = none) :
    (tryParseBody c L).messageBody = jsonParse (joinNL L) := by
  unfold tryParseBody
  rw [if_pos hty]
  rcases jsonParse (joinNL L) with _ | v
  · exact hmb
  · rfl

lemma startsWith_head (s k : String) (c : Char) (t' : List Char)
    (hk : k.data = c :: t') (h : strStartsWith s k = true) :
    ∃ t, s.data = c :: t := by
  unfold strStartsWith at h
  rw [hk] at h
  rcases hd : s.data with _ | ⟨a, t⟩ <;> rw [hd] at h
  · simp [List.isPrefixOf] at h
  · refine ⟨t, ?_⟩
    simp [List.isPrefixOf] at h
    rw [h.1]

lemma keywordOf_head (line : String) (ty : SQSCommandType) (n : Nat)
    (h : keywordOf line = some (ty, n)) :
    ∃ t, line.data = 'S' :: t ∨ line.data = 'R' :: t ∨ line.data = 'P' :: t := by
  unfold keywordOf at h
  by_cases h1 : strStartsWith line "SEND" = true
  · obtain ⟨t, ht⟩ := startsWith_head line "SEND" 'S' ['E', 'N', 'D'] rfl h1
    exact ⟨t, Or.inl ht⟩
  · rw [if_neg h1] at h
    by_cases h2 : strStartsWith line "RECEIVE" = true
    · obtain ⟨t, ht⟩ := startsWith_head line "RECEIVE" 'R' ['E', 'C', 'E', 'I', 'V', 'E'] rfl h2
      exact ⟨t, Or.inr (Or.inl ht)⟩
    · rw [if_neg h2] at h
      by_cases h3 : strStartsWith line "PURGE" = true
      · obtain ⟨t, ht⟩ := startsWith_head line "PURGE" 'P' ['U', 'R', 'G', 'E'] rfl h3
        exact ⟨t, Or.inr (Or.inr ht)⟩
      · rw [if_neg h3] at h
        exact Option.noConfusion h

lemma parseHeader_not_comment (line : String) (ty : SQSCommandType) (u : String)
    (h : parseHeader line = some (ty, u)) :
    ¬(line = "" ∨ strStartsWith line "#" = true) := by
  have hkw : ∃ ty' n, keywordOf line = some (ty', n) := by
    unfold parseHeader at h
    rcases hk : keywordOf line with _ | ⟨ty', n⟩
    · rw [hk] at h
      exact Option.noConfusion h
    · exact ⟨ty', n, rfl⟩

  obtain ⟨ty', n, hk⟩ := hkw
  obtain ⟨t, ht⟩ := keywordOf_head line ty' n hk
  rcases ht with ht | ht | ht <;>
    exact fun hor => by
      rcases hor with he | hsh
      · exact s_ne_empty_of_data line _ t ht he
      · rw [strStartsWith_false_of_head_ne line "#" _ t '#' [] ht rfl (by decide)] at hsh
        exact Bool.noConfusion hsh

lemma orDefault_of_ne (v fb : String) (h : v ≠ "") : orDefault v fb = v := by
  unfold orDefault
  rw [if_neg h]

/-- One non-header line never closes the open command; it can only
update its mutable fields.  The `profile`/`region` clauses are
conditional on the line not matching the respective parameter. -/
lemma step_no_header (d1 d2 : String) (i : Int) (l : String) (s : ScanState) (b : SQSCommand)
    (hH : parseHeader (jsTrim l) = none) (hc : s.currentCommand = some b) :
    ∃ b', (stepLine d1 d2 i l s).currentCommand = some b' ∧
      b'.type = b.type ∧ b'.queueUrl = b.queueUrl ∧
      (stepLine d1 d2 i l s).commands = s.commands ∧
      (stepLine d1 d2 i l s).commandBodyStartLine = s.commandBodyStartLine ∧
      (matchParam "profile" (jsTrim l) = none → b'.profile = b.profile) ∧
      (matchParam "region" (jsTrim l) = none → b'.region = b.region) := by
  unfold stepLine
  by_cases hns : jsTrim l = "" ∨ strStartsWith (jsTrim l) "#" = true
  · rw [stepTrimmed_skip d1 d2 i (jsTrim l) s hns]
    exact ⟨b, hc, rfl, rfl, rfl, rfl, fun _ => rfl, fun _ => rfl⟩
  · rcases hj : s.inJsonBody with _ | _
    · rw [stepTrimmed_param d1 d2 i (jsTrim l) s b hns hH hc hj]
      rcases hp : matchParam "profile" (jsTrim l) with _ | v
      · rcases hr : matchParam "region" (jsTrim l) with _ | v
        · rw [stepParamLine_rest i (jsTrim l) b s hp hr]
          by_cases hty : b.type = SQSCommandType.RECEIVE
          · unfold stepNumericParams
            rw [if_pos hty]
            rcases h1 : matchNatParam "max-messages" (jsTrim l) with _ | n
            · rcases h2 : matchNatParam "visibility-timeout" (jsTrim l) with _ | n
              · rcases h3 : matchNatParam "wait-time" (jsTrim l) with _ | n
                · by_cases hbr : b.type = SQSCommandType.SEND ∧
                      strStartsWith (jsTrim l) "\x7b" = true
                  · rw [stepAfterParams_brace i (jsTrim l) b s hbr.1 hbr.2]
                    exact ⟨b, hc, rfl, rfl, rfl, rfl, fun _ => rfl, fun _ => rfl⟩
                  · have hd : jsTrim l ≠ "###" := fun hl =>
                      hns (Or.inr (delim_is_comment (jsTrim l) hl))
                    rw [stepAfterParams_inert i (jsTrim l) b s hbr hd]
                    exact ⟨b, hc, rfl, rfl, rfl, rfl, fun _ => rfl, fun _ => rfl⟩
                · exact ⟨{ b with waitTimeSeconds := some n }, rfl, rfl, rfl, rfl, rfl,
                    fun _ => rfl, fun _ => rfl⟩
              · exact ⟨{ b with visibilityTimeout := some n }, rfl, rfl, rfl, rfl, rfl,
                  fun _ => rfl, fun _ => rfl⟩
            · exact ⟨{ b with maxMessages := some n }, rfl, rfl, rfl, rfl, rfl,
                fun _ => rfl, fun _ => rfl⟩
          · rw [stepNumericParams_other i (jsTrim l) b s hty]
            by_cases hbr : b.type = SQSCommandType.SEND ∧ strStartsWith (jsTrim l) "\x7b" = true
            · rw [stepAfterParams_brace i (jsTrim l) b s hbr.1 hbr.2]
              exact ⟨b, hc, rfl, rfl, rfl, rfl, fun _ => rfl, fun _ => rfl⟩
            · have hd : jsTrim l ≠ "###" := fun hl =>
                hns (Or.inr (delim_is_comment (jsTrim l) hl))
              rw [stepAfterParams_inert i (jsTrim l) b s hbr hd]
              exact ⟨b, hc, rfl, rfl, rfl, rfl, fun _ => rfl, fun _ => rfl⟩
        · rw [stepParamLine_region i (jsTrim l) b s v hp hr]
          exact ⟨{ b with region := v }, rfl, rfl, rfl, rfl, rfl, fun _ => rfl,
            fun hcon => by simp at hcon⟩
      · rw [stepParamLine_profile i (jsTrim l) b s v hp]
        exact ⟨{ b with profile := v }, rfl, rfl, rfl, rfl, rfl,
          fun hcon => by simp at hcon,
          fun _ => rfl⟩
    · rw [stepTrimmed_json d1 d2 i (jsTrim l) s hns hH hj]
      by_cases hz : s.bracesCount + braceNet (jsTrim l) = 0
      · rw [jsonBodyStep_zero (jsTrim l) s hz]
        refine ⟨tryParseBody b (s.commandBodyLines ++ [jsTrim l]), ?_, ?_, ?_, rfl, rfl, ?_, ?_⟩
        · show (match s.currentCommand with
            | some c => some (tryParseBody c (s.commandBodyLines ++ [jsTrim l]))
            | none => none) = _
          rw [hc]
        · exact tryParseBody_type b _
        · exact tryParseBody_queueUrl b _
        · intro _
          exact tryParseBody_profile b _
        · intro _
          exact tryParseBody_region b _
      · rw [jsonBodyStep_pos (jsTrim l) s hz]
        exact ⟨b, hc, rfl, rfl, rfl, rfl, fun _ => rfl, fun _ => rfl⟩

/-- Scanning any run of non-header lines keeps the command open,
preserving its kind and target (and, when no parameter line matches,
its profile/region); no command is emitted and the block's start line
is unchanged. -/
lemma tailRun (d1 d2 : String) (tail : List String)
    (hH : ∀ l ∈ tail, parseHeader (jsTrim l) = none) :
    ∀ (i : Int) (s : ScanState) (b : SQSCommand), s.currentCommand = some b →
    ∃ b', (scanFrom d1 d2 i tail s).currentCommand = some b' ∧
      b'.type = b.type ∧ b'.queueUrl = b.queueUrl ∧
      (scanFrom d1 d2 i tail s).commands = s.commands ∧
      (scanFrom d1 d2 i tail s).commandBodyStartLine = s.commandBodyStartLine ∧
      ((∀ l ∈ tail, matchParam "profile" (jsTrim l) = none) → b'.profile = b.profile) ∧
      ((∀ l ∈ tail, matchParam "region" (jsTrim l) = none) → b'.region = b.region) := by
  induction tail with
  | nil =>
    intro i s b hc
    exact ⟨b, hc, rfl, rfl, rfl, rfl, fun _ => rfl, fun _ => rfl⟩
  | cons l ls ih =>
    intro i s b hc
    rw [scanFrom_cons d1 d2 i l ls s]
    obtain ⟨b1, hc1, hty1, hu1, hcm1, hbs1, hpr1, hrg1⟩ :=
      step_no_header d1 d2 i l s b (hH l (List.mem_cons_self l ls)) hc
    obtain ⟨b', hc', hty', hu', hcm', hbs', hpr', hrg'⟩ :=
      ih (fun x hx => hH x (List.mem_cons_of_mem l hx)) (i + 1) (stepLine d1 d2 i l s) b1 hc1
    refine ⟨b', hc', by rw [hty', hty1], by rw [hu', hu1], by rw [hcm', hcm1],
      by rw [hbs', hbs1], ?_, ?_⟩
    · intro hall
      rw [hpr' (fun x hx => hall x (List.mem_cons_of_mem l hx)),
        hpr1 (hall l (List.mem_cons_self l ls))]
    · intro hall
      rw [hrg' (fun x hx => hall x (List.mem_cons_of_mem l hx)),
        hrg1 (hall l (List.mem_cons_self l ls))]

/-- One non-header, non-`{`-starting line processed in the parameter
state only updates the open builder (kind, target and pending body are
untouched). -/
lemma step_param_keep (d1 d2 : String) (i : Int) (l : String) (s : ScanState) (b : SQSCommand)
    (hH : parseHeader (jsTrim l) = none) (hB : strStartsWith (jsTrim l) "\x7b" = false)
    (hc : s.currentCommand = some b) (hj : s.inJsonBody = false) :
    ∃ b', stepLine d1 d2 i l s = { s with currentCommand := some b' } ∧
      b'.type = b.type ∧ b'.queueUrl = b.queueUrl ∧ b'.messageBody = b.messageBody := by
  unfold stepLine
  by_cases hns : jsTrim l = "" ∨ strStartsWith (jsTrim l) "#" = true
  · refine ⟨b, ?_, rfl, rfl, rfl⟩
    rw [stepTrimmed_skip d1 d2 i (jsTrim l) s hns, ← hc]
  · rw [stepTrimmed_param d1 d2 i (jsTrim l) s b hns hH hc hj]
    rcases hp : matchParam "profile" (jsTrim l) with _ | v
    · rcases hr : matchParam "region" (jsTrim l) with _ | v
      · rw [stepParamLine_rest i (jsTrim l) b s hp hr]
        have hbr : ¬(b.type = SQSCommandType.SEND ∧ strStartsWith (jsTrim l) "\x7b" = true) := by
          intro hand
          rw [hand.2] at hB
          exact Bool.noConfusion hB
        have hd : jsTrim l ≠ "###" := fun hl => hns (Or.inr (delim_is_comment (jsTrim l) hl))
        by_cases hty : b.type = SQSCommandType.RECEIVE
        · unfold stepNumericParams
          rw [if_pos hty]
          rcases h1 : matchNatParam "max-messages" (jsTrim l) with _ | n
          · rcases h2 : matchNatParam "visibility-timeout" (jsTrim l) with _ | n
            · rcases h3 : matchNatParam "wait-time" (jsTrim l) with _ | n
              · refine ⟨b, ?_, rfl, rfl, rfl⟩
                rw [stepAfterParams_inert i (jsTrim l) b s hbr hd, ← hc]
              · exact ⟨{ b with waitTimeSeconds := some n }, rfl, rfl, rfl, rfl⟩
            · exact ⟨{ b with visibilityTimeout := some n }, rfl, rfl, rfl, rfl⟩
          · exact ⟨{ b with maxMessages := some n }, rfl, rfl, rfl, rfl⟩
        · rw [stepNumericParams_other i (jsTrim l) b s hty]
          refine ⟨b, ?_, rfl, rfl, rfl⟩
          rw [stepAfterParams_inert i (jsTrim l) b s hbr hd, ← hc]
      · rw [stepParamLine_region i (jsTrim l) b s v hp hr]
        exact ⟨{ b with region := v }, rfl, rfl, rfl, rfl⟩
    · rw [stepParamLine_profile i (jsTrim l) b s v hp]
      exact ⟨{ b with profile := v }, rfl, rfl, rfl, rfl⟩

/-- Scanning a run of parameter-position lines (no headers, none
starting with `{`) from an open command only updates the builder. -/
lemma paramsRun (d1 d2 : String) (ps : List String)
    (hps : ∀ l ∈ ps, parseHeader (jsTrim l) = none ∧ strStartsWith (jsTrim l) "\x7b" = false) :
    ∀ (i : Int) (s : ScanState) (b : SQSCommand),
    s.currentCommand = some b → s.inJsonBody = false →
    ∃ b', scanFrom d1 d2 i ps s = { s with currentCommand := some b' } ∧
      b'.type = b.type ∧ b'.queueUrl = b.queueUrl ∧ b'.messageBody = b.messageBody := by
  induction ps with
  | nil =>
    intro i s b hc _
    refine ⟨b, ?_, rfl, rfl, rfl⟩
    show s = _
    rw [← hc]
  | cons l ls ih =>
    intro i s b hc hj
    rw [scanFrom_cons d1 d2 i l ls s]
    obtain ⟨b1, hs1, hty1, hu1, hmb1⟩ := step_param_keep d1 d2 i l s b
      (hps l (List.mem_cons_self l ls)).1 (hps l (List.mem_cons_self l ls)).2 hc hj
    rw [hs1]
    obtain ⟨b', hs', hty', hu', hmb'⟩ :=
      ih (fun x hx => hps x (List.mem_cons_of_mem l hx)) (i + 1)
        { s with currentCommand := some b1 } b1 rfl hj
    rw [hs']
    exact ⟨b', rfl, by rw [hty', hty1], by rw [hu', hu1], by rw [hmb', hmb1]⟩

def netTrim (l : String) : Int := braceNet (jsTrim l)

/-- Scanning body lines in the JSON-body state: every line is appended
trimmed and its braces counted; as long as the running count stays
non-zero before the final line, the state stays in the body and, if the
count reaches zero on the final line, the accumulated text is parsed. -/
lemma jsonRun (d1 d2 : String) (ls : List String) :
    ∀ (hls : ∀ l ∈ ls, jsTrim l ≠ "" ∧ strStartsWith (jsTrim l) "#" = false ∧
        parseHeader (jsTrim l) = none)
      (i : Int) (s : ScanState) (b : SQSCommand),
      s.currentCommand = some b → s.inJsonBody = true → s.bracesCount ≠ 0 →
      (∀ k, k < ls.length → s.bracesCount + ((ls.take k).map netTrim).sum ≠ 0) →
      ((s.bracesCount + (ls.map netTrim).sum = 0 →
        scanFrom d1 d2 i ls s =
          { s with commandBodyLines := s.commandBodyLines ++ ls.map jsTrim,
                   bracesCount := s.bracesCount + (ls.map netTrim).sum,
                   inJsonBody := false,
                   currentCommand :=
                     some (tryParseBody b (s.commandBodyLines ++ ls.map jsTrim)) }) ∧
       (s.bracesCount + (ls.map netTrim).sum ≠ 0 →
        scanFrom d1 d2 i ls s =
          { s with commandBodyLines := s.commandBodyLines ++ ls.map jsTrim,
                   bracesCount := s.bracesCount + (ls.map netTrim).sum,
                   currentCommand := some b })) := by
  induction ls with
  | nil =>
    intro _ i s b hc hj hc0 _
    constructor
    · intro h0
      rw [List.map_nil, List.sum_nil, add_zero] at h0
      exact absurd h0 hc0
    · intro _
      show s = _
      obtain ⟨cm, cc, bsl, cbl, ij, jsl, bc⟩ := s
      simp only [List.map_nil, List.append_nil, List.sum_nil, add_zero]
      simp only at hc hj
      rw [hc, hj]
  | cons l ls ih =>
    intro hls i s b hc hj hc0 hcnt
    rw [scanFrom_cons d1 d2 i l ls s]
    have hl := hls l (List.mem_cons_self l ls)
    have hns : ¬(jsTrim l = "" ∨ strStartsWith (jsTrim l) "#" = true) := by
      intro hor
      rcases hor with he | hsh
      · exact hl.1 he
      · rw [hl.2.1] at hsh
        exact Bool.noConfusion hsh
    rw [show stepLine d1 d2 i l s = stepTrimmed d1 d2 i (jsTrim l) s from rfl]
    rw [stepTrimmed_json d1 d2 i (jsTrim l) s hns hl.2.2 hj]
    rcases hnil : ls with _ | ⟨l2, ls2⟩
    · -- final line
      subst hnil
      by_cases hz : s.bracesCount + braceNet (jsTrim l) = 0
      · rw [jsonBodyStep_zero (jsTrim l) s hz]
        constructor
        · intro _
          show scanFrom d1 d2 (i + 1) [] _ = _
          rw [show ∀ s2, scanFrom d1 d2 (i + 1) [] s2 = s2 from fun _ => rfl]
          rw [hc]
          simp only [List.map_cons, List.map_nil, List.sum_cons, List.sum_nil, add_zero]
          rfl
        · intro hnz
          rw [List.map_cons, List.map_nil, List.sum_cons, List.sum_nil, add_zero] at hnz
          exact absurd hz hnz
      · rw [jsonBodyStep_pos (jsTrim l) s hz]
        constructor
        · intro h0
          rw [List.map_cons, List.map_nil, List.sum_cons, List.sum_nil, add_zero] at h0
          exact absurd h0 hz
        · intro _
          show scanFrom d1 d2 (i + 1) [] _ = _
          rw [show ∀ s2, scanFrom d1 d2 (i + 1) [] s2 = s2 from fun _ => rfl]
          rw [← hc]
          simp only [List.map_cons, List.map_nil, List.sum_cons, List.sum_nil, add_zero]
          rfl
    · -- more lines follow: the count stays non-zero here
      subst hnil
      have hz : ¬ s.bracesCount + braceNet (jsTrim l) = 0 := by
        have := hcnt 1 (by simp only [List.length_cons]; omega)
        simpa [List.take_succ_cons, List.take_zero, netTrim] using this
      rw [jsonBodyStep_pos (jsTrim l) s hz]
      have hstep :
          ({ s with commandBodyLines := s.commandBodyLines ++ [jsTrim l],
                    bracesCount := s.bracesCount + braceNet (jsTrim l) } :
            ScanState).currentCommand = some b := hc
      obtain ⟨ih1, ih2⟩ := ih (fun x hx => hls x (List.mem_cons_of_mem l hx)) (i + 1)
        { s with commandBodyLines := s.commandBodyLines ++ [jsTrim l],
                 bracesCount := s.bracesCount + braceNet (jsTrim l) } b hstep hj hz
        (by
          intro k hk
          have := hcnt (k + 1) (by simp only [List.length_cons] at hk ⊢; omega)
          simp only [List.take_succ_cons, List.map_cons, List.sum_cons, netTrim] at this ⊢
          omega)
      constructor
      · intro h0
        rw [List.map_cons, List.sum_cons] at h0
        have h0' : s.bracesCount + braceNet (jsTrim l) + ((l2 :: ls2).map netTrim).sum = 0 := by
          simp only [netTrim] at h0 ⊢
          omega
        rw [ih1 h0']
        simp only [List.map_cons, List.sum_cons, List.append_assoc, List.cons_append,
          List.nil_append, netTrim, add_assoc]
      · intro hnz
        rw [List.map_cons, List.sum_cons] at hnz
        have hnz' : ¬ s.bracesCount + braceNet (jsTrim l) + ((l2 :: ls2).map netTrim).sum = 0 := by
          simp only [netTrim] at hnz ⊢
          omega
        rw [ih2 hnz']
        simp only [List.map_cons, List.sum_cons, List.append_assoc, List.cons_append,
          List.nil_append, netTrim, add_assoc]

/-- A line whose trimmed form starts with `{`, processed with an open
`SEND` command outside a JSON body, enters the JSON-body state with the
brace count set to 1 — the braces on the opening line itself are not
counted. -/
lemma step_brace_entry (d1 d2 : String) (i : Int) (l : String) (s : ScanState) (b : SQSCommand)
    (hc : s.currentCommand = some b) (hj : s.inJsonBody = false)
    (hty : b.type = SQSCommandType.SEND) (hb : strStartsWith (jsTrim l) "\x7b" = true) :
    stepLine d1 d2 i l s =
      { s with inJsonBody := true, jsonStartLine := i, bracesCount := 1,
               commandBodyLines := s.commandBodyLines ++ [jsTrim l] } := by
  obtain ⟨t1, hbd⟩ := data_of_startsWith_brace (jsTrim l) hb
  have hns : ¬(jsTrim l = "" ∨ strStartsWith (jsTrim l) "#" = true) := by
    intro hor
    rcases hor with he | hsh
    · exact s_ne_empty_of_data _ '{' t1 hbd he
    · rw [strStartsWith_false_of_head_ne (jsTrim l) "#" '{' t1 '#' [] hbd rfl (by decide)] at hsh
      exact Bool.noConfusion hsh
  have hh : parseHeader (jsTrim l) = none :=
    parseHeader_none_of_head _ '{' t1 hbd (by decide) (by decide) (by decide)
  have hp : matchParam "profile" (jsTrim l) = none :=
    matchParam_none_of_head "profile" _ '{' t1 'p' ['r', 'o', 'f', 'i', 'l', 'e'] hbd rfl
      (by decide)
  have hr : matchParam "region" (jsTrim l) = none :=
    matchParam_none_of_head "region" _ '{' t1 'r' ['e', 'g', 'i', 'o', 'n'] hbd rfl (by decide)
  have hnr : ¬ b.type = SQSCommandType.RECEIVE := by
    rw [hty]
    exact fun he => SQSCommandType.noConfusion he
  unfold stepLine
  rw [stepTrimmed_param d1 d2 i (jsTrim l) s b hns hh hc hj,
    stepParamLine_rest i (jsTrim l) b s hp hr,
    stepNumericParams_other i (jsTrim l) b s hnr,
    stepAfterParams_brace i (jsTrim l) b s hty hb]

/-- Scanning a whole `SEND` block (header, parameter lines, an opening
`{` line, further body lines whose running lexical brace count stays
non-zero before the last line) from the initial state: the builder
holds the parse of the trimmed, joined body exactly when the count
closed, and no command has been emitted yet. -/
lemma sendBlockScan (d1 d2 u : String) (hdr : String) (ps : List String) (b1 : String)
    (bs : List String)
    (hh : parseHeader (jsTrim hdr) = some (SQSCommandType.SEND, u))
    (hps : ∀ l ∈ ps, parseHeader (jsTrim l) = none ∧ strStartsWith (jsTrim l) "\x7b" = false)
    (hb1 : strStartsWith (jsTrim b1) "\x7b" = true)
    (hbs : ∀ l ∈ bs, jsTrim l ≠ "" ∧ strStartsWith (jsTrim l) "#" = false ∧
      parseHeader (jsTrim l) = none)
    (hcnt : ∀ k, k < bs.length → (1 : Int) + ((bs.take k).map netTrim).sum ≠ 0) :
    ∃ (b' : SQSCommand) (j' : Bool) (jsl : Int),
      scanFrom d1 d2 0 (hdr :: (ps ++ b1 :: bs)) initState =
        { commands := [], currentCommand := some b', commandBodyStartLine := 0,
          commandBodyLines := jsTrim b1 :: bs.map jsTrim, inJsonBody := j',
          jsonStartLine := jsl, bracesCount := 1 + (bs.map netTrim).sum } ∧
      b'.type = SQSCommandType.SEND ∧ b'.queueUrl = u ∧
      b'.messageBody = (if 1 + (bs.map netTrim).sum = 0 then
        jsonParse (joinNL (jsTrim b1 :: bs.map jsTrim)) else none) := by
  have hns := parseHeader_not_comment (jsTrim hdr) SQSCommandType.SEND u hh
  have hs1 : stepLine d1 d2 0 hdr initState =
      ({ commands := [], currentCommand := some (newCommand d1 d2 SQSCommandType.SEND u),
         commandBodyStartLine := 0, commandBodyLines := [], inJsonBody := false,
         jsonStartLine := -1, bracesCount := 0 } : ScanState) := by
    unfold stepLine
    rw [stepTrimmed_header d1 d2 0 (jsTrim hdr) initState SQSCommandType.SEND u hns hh]
    unfold stepHeader
    rw [sealIfOpen_of_none initState (0 - 1) rfl]
    rfl
  obtain ⟨bP, hsp, htyP, huP, hmbP⟩ := paramsRun d1 d2 ps hps (0 + 1)
    { commands := [], currentCommand := some (newCommand d1 d2 SQSCommandType.SEND u),
      commandBodyStartLine := 0, commandBodyLines := [], inJsonBody := false,
      jsonStartLine := -1, bracesCount := 0 } (newCommand d1 d2 SQSCommandType.SEND u) rfl rfl
  have htyPS : bP.type = SQSCommandType.SEND := by rw [htyP]; rfl
  have hmbPn : bP.messageBody = none := by rw [hmbP]; rfl
  have huPu : bP.queueUrl = u := by rw [huP]; rfl
  have hsp2 : scanFrom d1 d2 (0 + 1) ps
      { commands := [], currentCommand := some (newCommand d1 d2 SQSCommandType.SEND u),
        commandBodyStartLine := 0, commandBodyLines := [], inJsonBody := false,
        jsonStartLine := -1, bracesCount := 0 } =
      ({ commands := [], currentCommand := some bP, commandBodyStartLine := 0,
         commandBodyLines := [], inJsonBody := false, jsonStartLine := -1,
         bracesCount := 0 } : ScanState) := by
    rw [hsp]
  have hs3 : stepLine d1 d2 (0 + 1 + (ps.length : Int)) b1
      { commands := [], currentCommand := some bP, commandBodyStartLine := 0,
        commandBodyLines := [], inJsonBody := false, jsonStartLine := -1,
        bracesCount := 0 } =
      ({ commands := [], currentCommand := some bP, commandBodyStartLine := 0,
         commandBodyLines := [jsTrim b1], inJsonBody := true,
         jsonStartLine := 0 + 1 + (ps.length : Int), bracesCount := 1 } : ScanState) := by
    rw [step_brace_entry d1 d2 (0 + 1 + (ps.length : Int)) b1 _ bP rfl rfl htyPS hb1]
    rfl
  rw [scanFrom_cons, hs1, scanFrom_append d1 d2 ps (b1 :: bs) (0 + 1), hsp2, scanFrom_cons, hs3]
  obtain ⟨run0, runPos⟩ := jsonRun d1 d2 bs hbs (0 + 1 + (ps.length : Int) + 1)
    { commands := [], currentCommand := some bP, commandBodyStartLine := 0,
      commandBodyLines := [jsTrim b1], inJsonBody := true,
      jsonStartLine := 0 + 1 + (ps.length : Int), bracesCount := 1 } bP rfl rfl
    (by norm_num : (1 : Int) ≠ 0) hcnt
  by_cases hz : (1 : Int) + (bs.map netTrim).sum = 0
  · refine ⟨tryParseBody bP (jsTrim b1 :: bs.map jsTrim), false, 0 + 1 + (ps.length : Int),
      ?_, ?_, ?_, ?_⟩
    · rw [run0 hz]
      rfl
    · rw [tryParseBody_type]
      exact htyPS
    · rw [tryParseBody_queueUrl]
      exact huPu
    · rw [if_pos hz]
      exact tryParseBody_body_of_none bP _ htyPS hmbPn
  · refine ⟨bP, true, 0 + 1 + (ps.length : Int), ?_, htyPS, huPu, ?_⟩
    · rw [runPos hz]
      rfl
    · rw [if_neg hz]
      exact hmbPn

/-! ## Claim theorems -/

/-- Claim C3: for every input string and every pair of default
profile/region values, `parse` terminates and returns a list of
commands; it never throws or returns a hard failure (its shallow
embedding is a total function). -/
theorem c3_parser_total (text d1 d2 : String) :
    ∃ cmds : List SQSCommand, parseSQSCommands text d1 d2 = cmds :=
  ⟨parseSQSCommands text d1 d2, rfl⟩

/-- Claim C6: a line that is empty after trimming, or whose trimmed form
starts with `#`, is skipped in every scanner state: the whole scanner
state (open command, brace count, JSON-body flag, accumulated body) is
unchanged. -/
theorem c6_comment_skip (d1 d2 : String) (i : Int) (l : String) (s : ScanState)
    (h : jsTrim l = "" ∨ strStartsWith (jsTrim l) "#" = true) :
    stepLine d1 d2 i l s = s := by
  unfold stepLine
  exact stepTrimmed_skip d1 d2 i (jsTrim l) s h

theorem c6_witness :
    (jsTrim "   # a comment { } ###" = "" ∨
      strStartsWith (jsTrim "   # a comment { } ###") "#" = true) ∧
    stepLine "p" "r" 7 "   # a comment { } ###" initState = initState :=
  ⟨Or.inr (by decide),
    c6_comment_skip "p" "r" 7 "   # a comment { } ###" initState (Or.inr (by decide))⟩

/-- Claim C1 (code bug): the spec says a line that is exactly `###`
while a command is open seals the command at the delimiter's line and
returns the scanner to Idle, so that following lines affect no command.
In the code the comment check (`line.startsWith('#')`) consumes every
line trimming to `###` first, so the delimiter branch is dead code: on
`"SEND q\n###\nprofile: evil"` the single emitted command is sealed at
the end of the document (line 2, not line 1) and the `profile:` line
after the delimiter overrides its profile to `"evil"` (the claim
requires the default `"p"` and an end line of 1). -/
theorem c1_delimiter_dead_code :
    parseSQSCommands "SEND q\n###\nprofile: evil" "p" "r" =
      [{ type := SQSCommandType.SEND, queueUrl := "q", profile := "evil", region := "r",
         messageBody := none, maxMessages := none, visibilityTimeout := none,
         waitTimeSeconds := none, range := some ⟨0, 0, 2, 1000⟩ }] := by
  rfl

/-- Claim C8: every emitted command has its kind and target present
(structurally, with a non-empty target), non-empty profile and region,
and a sealed source range. -/
theorem c8_required_fields (text d1 d2 : String) (cmd : SQSCommand)
    (h : cmd ∈ parseSQSCommands text d1 d2) :
    cmd.queueUrl ≠ "" ∧ cmd.profile ≠ "" ∧ cmd.region ≠ "" ∧ cmd.range.isSome = true := by
  refine parseSQSLines_StateOK (P := fun c => c.profile ≠ "" ∧ c.region ≠ "")
    (Q := fun c => c.queueUrl ≠ "" ∧ c.profile ≠ "" ∧ c.region ≠ "" ∧ c.range.isSome = true)
    ?_ ?_ ?_ ?_ ?_ ?_ ?_ ?_ (splitLines text) cmd h
  · intro c a b L hP hg
    refine ⟨?_, ?_, ?_, ?_⟩
    · rw [finalizeCommand_queueUrl]
      exact hg
    · rw [finalizeCommand_profile]
      exact hP.1
    · rw [finalizeCommand_region]
      exact hP.2
    · rw [finalizeCommand_range]
      rfl
  · intro ty url _
    exact ⟨orDefault_ne_empty d1 "default" (by decide),
      orDefault_ne_empty d2 "us-east-1" (by decide)⟩
  · intro c v hP hv
    exact ⟨hv, hP.2⟩
  · intro c v hP hv
    exact ⟨hP.1, hv⟩
  · intro c n hP _
    exact hP
  · intro c n hP _
    exact hP
  · intro c n hP _
    exact hP
  · intro c v hP
    exact hP

theorem c8_witness :
    ({ type := SQSCommandType.PURGE, queueUrl := "q", profile := "default",
       region := "us-east-1", messageBody := none, maxMessages := none,
       visibilityTimeout := none, waitTimeSeconds := none,
       range := some ⟨0, 0, 0, 1000⟩ } : SQSCommand) ∈ parseSQSCommands "PURGE q" "" "" ∧
    ("q" : String) ≠ "" ∧ ("default" : String) ≠ "" ∧ ("us-east-1" : String) ≠ "" ∧
    (some (⟨0, 0, 0, 1000⟩ : SQSRange)).isSome = true := by
  have hm :
      ({ type := SQSCommandType.PURGE, queueUrl := "q", profile := "default",
         region := "us-east-1", messageBody := none, maxMessages := none,
         visibilityTimeout := none, waitTimeSeconds := none,
         range := some ⟨0, 0, 0, 1000⟩ } : SQSCommand) ∈ parseSQSCommands "PURGE q" "" "" := by
    rw [show parseSQSCommands "PURGE q" "" "" =
      [{ type := SQSCommandType.PURGE, queueUrl := "q", profile := "default",
         region := "us-east-1", messageBody := none, maxMessages := none,
         visibilityTimeout := none, waitTimeSeconds := none,
         range := some ⟨0, 0, 0, 1000⟩ }] from rfl]
    exact List.mem_singleton.mpr rfl
  exact ⟨hm, c8_required_fields "PURGE q" "" "" _ hm⟩

/-- Claim C9: the numeric fields are only ever set on `RECEIVE`
commands; a `max-messages:`, `visibility-timeout:` or `wait-time:` line
inside a `SEND` or `PURGE` block never populates the corresponding
field. -/
theorem c9_kind_gated_params (text d1 d2 : String) (cmd : SQSCommand)
    (h : cmd ∈ parseSQSCommands text d1 d2) (hty : cmd.type ≠ SQSCommandType.RECEIVE) :
    cmd.maxMessages = none ∧ cmd.visibilityTimeout = none ∧ cmd.waitTimeSeconds = none := by
  refine parseSQSLines_StateOK
    (P := fun c => c.type ≠ SQSCommandType.RECEIVE →
      c.maxMessages = none ∧ c.visibilityTimeout = none ∧ c.waitTimeSeconds = none)
    (Q := fun c => c.type ≠ SQSCommandType.RECEIVE →
      c.maxMessages = none ∧ c.visibilityTimeout = none ∧ c.waitTimeSeconds = none)
    ?_ ?_ ?_ ?_ ?_ ?_ ?_ ?_ (splitLines text) cmd h hty
  · intro c a b L hP _ hty2
    rw [finalizeCommand_type] at hty2
    have h3 := hP hty2
    rw [finalizeCommand_maxMessages, finalizeCommand_visibilityTimeout,
      finalizeCommand_waitTimeSeconds]
    exact h3
  · intro ty url _ _
    exact ⟨rfl, rfl, rfl⟩
  · intro c v hP _ hty2
    exact hP hty2
  · intro c v hP _ hty2
    exact hP hty2
  · intro c n _ hrec hty2
    exact absurd hrec hty2
  · intro c n _ hrec hty2
    exact absurd hrec hty2
  · intro c n _ hrec hty2
    exact absurd hrec hty2
  · intro c v hP hty2
    exact hP hty2

theorem c9_witness :
    ({ type := SQSCommandType.SEND, queueUrl := "q", profile := "p",
       region := "r", messageBody := none, maxMessages := none,
       visibilityTimeout := none, waitTimeSeconds := none,
       range := some ⟨0, 0, 1, 1000⟩ } : SQSCommand) ∈
      parseSQSCommands "SEND q\nmax-messages: 5" "p" "r" ∧
    (none : Option Nat) = none ∧ (none : Option Nat) = none ∧ (none : Option Nat) = none := by
  have hm :
      ({ type := SQSCommandType.SEND, queueUrl := "q", profile := "p",
         region := "r", messageBody := none, maxMessages := none,
         visibilityTimeout := none, waitTimeSeconds := none,
         range := some ⟨0, 0, 1, 1000⟩ } : SQSCommand) ∈
      parseSQSCommands "SEND q\nmax-messages: 5" "p" "r" := by
    rw [show parseSQSCommands "SEND q\nmax-messages: 5" "p" "r" =
      [{ type := SQSCommandType.SEND, queueUrl := "q", profile := "p",
         region := "r", messageBody := none, maxMessages := none,
         visibilityTimeout := none, waitTimeSeconds := none,
         range := some ⟨0, 0, 1, 1000⟩ }] from rfl]
    exact List.mem_singleton.mpr rfl
  exact ⟨hm, c9_kind_gated_params "SEND q\nmax-messages: 5" "p" "r" _ hm (by decide)⟩

/-- Claim C2 counterexample: the document
`SEND q` / `{"a":` / `"}",` / `"b": {}}` has a well-formed, balanced
JSON object following the `SEND` header (its three lines joined parse
successfully), yet the emitted command's body is absent: the `}` inside
the string literal on the second body line drives the lexical brace
count to zero early, the early `JSON.parse` of the truncated text
fails, and the final body line is then consumed in the parameter state
and never accumulated. -/
theorem c2_counterexample :
    (jsonParse "\x7b\"a\":\n\"\x7d\",\n\"b\": \x7b\x7d\x7d").isSome = true ∧
    (parseSQSCommands "SEND q\n\x7b\"a\":\n\"\x7d\",\n\"b\": \x7b\x7d\x7d" "p" "r").map
      (fun c => c.messageBody.isSome) = [false] :=
  ⟨rfl, rfl⟩

/-- Claim C2, amended: a well-formed, balanced JSON object following a
`SEND` header (after optional parameter lines) is recovered
semantically as the command's body, *provided* the running lexical
brace count — which starts at 1 after the opening line, whose own
braces are not counted, and counts every literal brace including those
inside string literals — does not reach zero before the object's final
line.  The body equals the parse of the trimmed lines joined with line
feeds. -/
theorem c2_json_roundtrip_amended (d1 d2 u : String) (hdr : String) (ps : List String)
    (b1 : String) (bs : List String) (v : Json)
    (hh : parseHeader (jsTrim hdr) = some (SQSCommandType.SEND, u))
    (hps : ∀ l ∈ ps, parseHeader (jsTrim l) = none ∧ strStartsWith (jsTrim l) "\x7b" = false)
    (hb1 : strStartsWith (jsTrim b1) "\x7b" = true)
    (hbs : ∀ l ∈ bs, jsTrim l ≠ "" ∧ strStartsWith (jsTrim l) "#" = false ∧
      parseHeader (jsTrim l) = none)
    (hcnt : ∀ k, k < bs.length → (1 : Int) + ((bs.take k).map netTrim).sum ≠ 0)
    (hjson : jsonParse (joinNL (jsTrim b1 :: bs.map jsTrim)) = some v) :
    ∃ cmd, parseSQSLines d1 d2 (hdr :: (ps ++ b1 :: bs)) = [cmd] ∧
      cmd.messageBody = some v ∧ cmd.type = SQSCommandType.SEND ∧ cmd.queueUrl = u ∧
      cmd.range = some ⟨0, 0, (ps.length : Int) + (bs.length : Int) + 1, 1000⟩ := by
  obtain ⟨b', j', jsl, hscan, hty', hu', hmb'⟩ :=
    sendBlockScan d1 d2 u hdr ps b1 bs hh hps hb1 hbs hcnt
  have hune : b'.queueUrl ≠ "" := by
    rw [hu']
    exact parseHeader_target_ne _ _ u hh
  unfold parseSQSLines
  rw [hscan, sealIfOpen_of_some _ _ b' rfl hune]
  refine ⟨finalizeCommand b' 0 (((hdr :: (ps ++ b1 :: bs)).length : Int) - 1)
    (jsTrim b1 :: bs.map jsTrim), ?_, ?_, ?_, ?_, ?_⟩
  · rfl
  · by_cases hz : (1 : Int) + (bs.map netTrim).sum = 0
    · rw [if_pos hz, hjson] at hmb'
      exact finalizeCommand_body_of_some b' _ _ _ v hmb'
    · rw [if_neg hz] at hmb'
      rw [finalizeCommand_body_of_none b' _ _ _ hty' hmb' (by simp)]
      exact hjson
  · rw [finalizeCommand_type]
    exact hty'
  · rw [finalizeCommand_queueUrl]
    exact hu'
  · rw [finalizeCommand_range]
    have harith : ((hdr :: (ps ++ b1 :: bs)).length : Int) - 1 =
        (ps.length : Int) + (bs.length : Int) + 1 := by
      simp only [List.length_cons, List.length_append]
      push_cast
      ring
    rw [harith]

theorem c2_witness :
    ∃ cmd, parseSQSLines "p" "r" ["SEND q", "\x7b\"x\":", "1\x7d"] = [cmd] ∧
      cmd.messageBody = some (Json.obj [("x", Json.num "1")]) ∧
      cmd.type = SQSCommandType.SEND ∧ cmd.queueUrl = "q" ∧
      cmd.range = some ⟨0, 0, ((0 : Nat) : Int) + ((1 : Nat) : Int) + 1, 1000⟩ :=
  c2_json_roundtrip_amended "p" "r" "q" "SEND q" [] "\x7b\"x\":" ["1\x7d"]
    (Json.obj [("x", Json.num "1")]) rfl
    (fun l hl => absurd hl (List.not_mem_nil l)) rfl
    (by
      intro l hl
      obtain rfl := List.mem_singleton.mp hl
      exact ⟨by decide, rfl, rfl⟩)
    (by
      intro k hk
      have hk0 : k = 0 := by
        simp only [List.length_cons, List.length_nil] at hk
        omega
      subst hk0
      decide)
    rfl

/-- Claim C4 counterexample: with empty-string defaults the emitted
fields are the fallbacks `"default"` and `"us-east-1"`, not the
caller-supplied empty strings (the source applies `|| 'default'` and
`|| 'us-east-1'` to the configuration values). -/
theorem c4_counterexample :
    (parseSQSCommands "PURGE q" "" "").map (fun c => (c.profile, c.region)) =
      [("default", "us-east-1")] ∧
    (("default", "us-east-1") : String × String) ≠ ("", "") :=
  ⟨rfl, by decide⟩

/-- Claim C7: a `SEND` block whose accumulated body text is unbalanced
or not syntactically valid JSON still yields a sealed command with the
body absent, and the scan of the following block is unaffected: the
next header seals the bad block exactly before itself and the following
command is parsed and emitted as usual. -/
theorem c7_malformed_json_tolerance (d1 d2 u u2 : String) (ty2 : SQSCommandType)
    (hdr : String) (ps : List String) (b1 : String) (bs : List String)
    (hdr2 : String) (tail2 : List String)
    (hh : parseHeader (jsTrim hdr) = some (SQSCommandType.SEND, u))
    (hps : ∀ l ∈ ps, parseHeader (jsTrim l) = none ∧ strStartsWith (jsTrim l) "\x7b" = false)
    (hb1 : strStartsWith (jsTrim b1) "\x7b" = true)
    (hbs : ∀ l ∈ bs, jsTrim l ≠ "" ∧ strStartsWith (jsTrim l) "#" = false ∧
      parseHeader (jsTrim l) = none)
    (hcnt : ∀ k, k < bs.length → (1 : Int) + ((bs.take k).map netTrim).sum ≠ 0)
    (hbad : jsonParse (joinNL (jsTrim b1 :: bs.map jsTrim)) = none)
    (hh2 : parseHeader (jsTrim hdr2) = some (ty2, u2))
    (hH2 : ∀ l ∈ tail2, parseHeader (jsTrim l) = none) :
    ∃ cmd0 cmd1,
      parseSQSLines d1 d2 ((hdr :: (ps ++ b1 :: bs)) ++ hdr2 :: tail2) = [cmd0, cmd1] ∧
      cmd0.type = SQSCommandType.SEND ∧ cmd0.queueUrl = u ∧ cmd0.messageBody = none ∧
      cmd0.range = some ⟨0, 0, (ps.length : Int) + (bs.length : Int) + 1, 1000⟩ ∧
      cmd1.type = ty2 ∧ cmd1.queueUrl = u2 := by
  obtain ⟨b', j', jsl, hscan, hty', hu', hmb'⟩ :=
    sendBlockScan d1 d2 u hdr ps b1 bs hh hps hb1 hbs hcnt
  have hune : b'.queueUrl ≠ "" := by
    rw [hu']
    exact parseHeader_target_ne _ _ u hh
  have hmbn : b'.messageBody = none := by
    by_cases hz : (1 : Int) + (bs.map netTrim).sum = 0
    · rw [if_pos hz, hbad] at hmb'
      exact hmb'
    · rw [if_neg hz] at hmb'
      exact hmb'
  unfold parseSQSLines
  rw [scanFrom_append d1 d2 (hdr :: (ps ++ b1 :: bs)) (hdr2 :: tail2) 0, hscan, scanFrom_cons]
  have hstep2 : stepLine d1 d2 (0 + ((hdr :: (ps ++ b1 :: bs)).length : Int))
      hdr2
      { commands := [], currentCommand := some b', commandBodyStartLine := 0,
        commandBodyLines := jsTrim b1 :: bs.map jsTrim, inJsonBody := j',
        jsonStartLine := jsl, bracesCount := 1 + (bs.map netTrim).sum } =
      ({ commands := [finalizeCommand b' 0
           (0 + ((hdr :: (ps ++ b1 :: bs)).length : Int) - 1) (jsTrim b1 :: bs.map jsTrim)],
         currentCommand := some (newCommand d1 d2 ty2 u2),
         commandBodyStartLine := 0 + ((hdr :: (ps ++ b1 :: bs)).length : Int),
         commandBodyLines := [], inJsonBody := false, jsonStartLine := -1,
         bracesCount := 1 + (bs.map netTrim).sum } : ScanState) := by
    unfold stepLine
    rw [stepTrimmed_header d1 d2 _ (jsTrim hdr2) _ ty2 u2
      (parseHeader_not_comment (jsTrim hdr2) ty2 u2 hh2) hh2]
    unfold stepHeader
    rw [sealIfOpen_of_some _ _ b' rfl hune]
    rfl
  rw [hstep2]
  obtain ⟨b'', hc'', hty'', hu'', hcm'', hbs'', -, -⟩ := tailRun d1 d2 tail2 hH2
    (0 + ((hdr :: (ps ++ b1 :: bs)).length : Int) + 1)
    { commands := [finalizeCommand b' 0
        (0 + ((hdr :: (ps ++ b1 :: bs)).length : Int) - 1) (jsTrim b1 :: bs.map jsTrim)],
      currentCommand := some (newCommand d1 d2 ty2 u2),
      commandBodyStartLine := 0 + ((hdr :: (ps ++ b1 :: bs)).length : Int),
      commandBodyLines := [], inJsonBody := false, jsonStartLine := -1,
      bracesCount := 1 + (bs.map netTrim).sum } (newCommand d1 d2 ty2 u2) rfl
  have hg2 : b''.queueUrl ≠ "" := by
    rw [hu'']
    exact parseHeader_target_ne _ _ u2 hh2
  rw [sealIfOpen_of_some _ _ b'' hc'' hg2]
  refine ⟨_, _, by rw [hcm'']; rfl, ?_, ?_, ?_, ?_, ?_, ?_⟩
  · rw [finalizeCommand_type]
    exact hty'
  · rw [finalizeCommand_queueUrl]
    exact hu'
  · rw [finalizeCommand_body_of_none b' _ _ _ hty' hmbn (by simp)]
    exact hbad
  · rw [finalizeCommand_range]
    have harith : 0 + ((hdr :: (ps ++ b1 :: bs)).length : Int) - 1 =
        (ps.length : Int) + (bs.length : Int) + 1 := by
      simp only [List.length_cons, List.length_append]
      push_cast
      ring
    rw [harith]
  · rw [finalizeCommand_type, hty'']
    rfl
  · rw [finalizeCommand_queueUrl, hu'']
    rfl

theorem c7_witness :
    ∃ cmd0 cmd1,
      parseSQSLines "p" "r" (("SEND q" :: ([] ++ "\x7b\"x\":" :: [])) ++ "RECEIVE w" :: []) =
        [cmd0, cmd1] ∧
      cmd0.type = SQSCommandType.SEND ∧ cmd0.queueUrl = "q" ∧ cmd0.messageBody = none ∧
      cmd0.range = some ⟨0, 0, ((0 : Nat) : Int) + ((0 : Nat) : Int) + 1, 1000⟩ ∧
      cmd1.type = SQSCommandType.RECEIVE ∧ cmd1.queueUrl = "w" :=
  c7_malformed_json_tolerance "p" "r" "q" "w" SQSCommandType.RECEIVE "SEND q" [] "\x7b\"x\":"
    [] "RECEIVE w" [] rfl (fun l hl => absurd hl (List.not_mem_nil l)) rfl
    (fun l hl => absurd hl (List.not_mem_nil l))
    (fun k hk => absurd hk (by simp)) rfl rfl
    (fun l hl => absurd hl (List.not_mem_nil l))

/-- Claim C5 counterexample: after a single-line body `{"x":1}` (whose
braces are not counted, leaving the count at 1), the later `}` line
brings the lexical brace count to zero and exits the JSON-body state,
so the subsequent non-blank, non-comment, non-header line
`profile: evil` is *not* appended to the body text as the claim states:
it is consumed as a parameter and overrides the profile (the claim
implies the default `"p"` would be kept). -/
theorem c5_counterexample :
    (parseSQSCommands "SEND q\n\x7b\"x\":1\x7d\n\x7d\nprofile: evil" "p" "r").map
      (fun c => c.profile) = ["evil"] ∧
    (["evil"] : List String) ≠ ["p"] :=
  ⟨rfl, by decide⟩

/-- Claim C10: a document whose final command block is not followed by
a `###` delimiter still emits that trailing command, sealed with its
range ending at the last line of the document (`finalizeCommand`
attempts the pending JSON parse there when the body was not already
resolved). -/
theorem c10_trailing_block (d1 d2 : String) (pre : List String) (hdr : String)
    (tail : List String) (ty : SQSCommandType) (u : String)
    (hh : parseHeader (jsTrim hdr) = some (ty, u))
    (hH : ∀ l ∈ tail, parseHeader (jsTrim l) = none)
    (hD : ∀ l ∈ tail, jsTrim l ≠ "###") :
    ∃ cs cmd, parseSQSLines d1 d2 (pre ++ hdr :: tail) = cs ++ [cmd] ∧
      cmd.type = ty ∧ cmd.queueUrl = u ∧
      cmd.range = some ⟨(pre.length : Int), 0, ((pre ++ hdr :: tail).length : Int) - 1, 1000⟩ := by
  unfold parseSQSLines
  rw [scanFrom_append d1 d2 pre (hdr :: tail) 0, scanFrom_cons]
  have hstep : stepLine d1 d2 (0 + (pre.length : Int)) hdr (scanFrom d1 d2 0 pre initState) =
      { sealIfOpen (scanFrom d1 d2 0 pre initState) (0 + (pre.length : Int) - 1) with
        currentCommand := some (newCommand d1 d2 ty u),
        commandBodyStartLine := 0 + (pre.length : Int), inJsonBody := false,
        jsonStartLine := -1 } := by
    unfold stepLine
    rw [stepTrimmed_header d1 d2 _ (jsTrim hdr) _ ty u
      (parseHeader_not_comment (jsTrim hdr) ty u hh) hh]
    unfold stepHeader
    rfl
  rw [hstep]
  obtain ⟨b'', hc'', hty'', hu'', hcm'', hbs'', -, -⟩ := tailRun d1 d2 tail hH
    (0 + (pre.length : Int) + 1)
    { sealIfOpen (scanFrom d1 d2 0 pre initState) (0 + (pre.length : Int) - 1) with
      currentCommand := some (newCommand d1 d2 ty u),
      commandBodyStartLine := 0 + (pre.length : Int), inJsonBody := false,
      jsonStartLine := -1 } (newCommand d1 d2 ty u) rfl
  have hg : b''.queueUrl ≠ "" := by
    rw [hu'']
    exact parseHeader_target_ne _ _ u hh
  rw [sealIfOpen_of_some _ _ b'' hc'' hg]
  refine ⟨_, _, rfl, ?_, ?_, ?_⟩
  · rw [finalizeCommand_type, hty'']
    rfl
  · rw [finalizeCommand_queueUrl, hu'']
    rfl
  · rw [finalizeCommand_range, hbs'']
    have harith :
        ({ sealIfOpen (scanFrom d1 d2 0 pre initState) (0 + (pre.length : Int) - 1) with
           currentCommand := some (newCommand d1 d2 ty u),
           commandBodyStartLine := 0 + (pre.length : Int), inJsonBody := false,
           jsonStartLine := -1 } : ScanState).commandBodyStartLine = (pre.length : Int) := by
      show 0 + (pre.length : Int) = (pre.length : Int)
      omega
    rw [harith]

/-- Claim C4, amended: a command block with no `profile:` and no
`region:` line gets exactly the caller-supplied defaults in those
fields *for every non-empty choice of the defaults*; an empty (or
unset) default is replaced by the fallbacks `"default"` /
`"us-east-1"` by the `||` in the source. -/
theorem c4_default_substitution_amended (d1 d2 : String) (pre : List String) (hdr : String)
    (tail : List String) (ty : SQSCommandType) (u : String)
    (hd1 : d1 ≠ "") (hd2 : d2 ≠ "")
    (hh : parseHeader (jsTrim hdr) = some (ty, u))
    (hH : ∀ l ∈ tail, parseHeader (jsTrim l) = none)
    (hP : ∀ l ∈ tail, matchParam "profile" (jsTrim l) = none)
    (hR : ∀ l ∈ tail, matchParam "region" (jsTrim l) = none) :
    ∃ cs cmd, parseSQSLines d1 d2 (pre ++ hdr :: tail) = cs ++ [cmd] ∧
      cmd.profile = d1 ∧ cmd.region = d2 ∧ cmd.type = ty ∧ cmd.queueUrl = u ∧
      cmd.range = some ⟨(pre.length : Int), 0,
        ((pre ++ hdr :: tail).length : Int) - 1, 1000⟩ := by
  unfold parseSQSLines
  rw [scanFrom_append d1 d2 pre (hdr :: tail) 0, scanFrom_cons]
  have hstep : stepLine d1 d2 (0 + (pre.length : Int)) hdr (scanFrom d1 d2 0 pre initState) =
      { sealIfOpen (scanFrom d1 d2 0 pre initState) (0 + (pre.length : Int) - 1) with
        currentCommand := some (newCommand d1 d2 ty u),
        commandBodyStartLine := 0 + (pre.length : Int), inJsonBody := false,
        jsonStartLine := -1 } := by
    unfold stepLine
    rw [stepTrimmed_header d1 d2 _ (jsTrim hdr) _ ty u
      (parseHeader_not_comment (jsTrim hdr) ty u hh) hh]
    unfold stepHeader
    rfl
  rw [hstep]
  obtain ⟨b'', hc'', hty'', hu'', hcm'', hbs'', hpr'', hrg''⟩ := tailRun d1 d2 tail hH
    (0 + (pre.length : Int) + 1)
    { sealIfOpen (scanFrom d1 d2 0 pre initState) (0 + (pre.length : Int) - 1) with
      currentCommand := some (newCommand d1 d2 ty u),
      commandBodyStartLine := 0 + (pre.length : Int), inJsonBody := false,
      jsonStartLine := -1 } (newCommand d1 d2 ty u) rfl
  have hg : b''.queueUrl ≠ "" := by
    rw [hu'']
    exact parseHeader_target_ne _ _ u hh
  rw [sealIfOpen_of_some _ _ b'' hc'' hg]
  refine ⟨_, _, rfl, ?_, ?_, ?_, ?_, ?_⟩
  · rw [finalizeCommand_profile, hpr'' hP]
    exact orDefault_of_ne d1 "default" hd1
  · rw [finalizeCommand_region, hrg'' hR]
    exact orDefault_of_ne d2 "us-east-1" hd2
  · rw [finalizeCommand_type, hty'']
    rfl
  · rw [finalizeCommand_queueUrl, hu'']
    rfl
  · rw [finalizeCommand_range, hbs'']
    have harith :
        ({ sealIfOpen (scanFrom d1 d2 0 pre initState) (0 + (pre.length : Int) - 1) with
           currentCommand := some (newCommand d1 d2 ty u),
           commandBodyStartLine := 0 + (pre.length : Int), inJsonBody := false,
           jsonStartLine := -1 } : ScanState).commandBodyStartLine = (pre.length : Int) := by
      show 0 + (pre.length : Int) = (pre.length : Int)
      omega
    rw [harith]

theorem c4_witness :
    ∃ cs cmd, parseSQSLines "p" "r" ([] ++ "RECEIVE q" :: ["max-messages: 2"]) = cs ++ [cmd] ∧
      cmd.profile = "p" ∧ cmd.region = "r" ∧ cmd.type = SQSCommandType.RECEIVE ∧
      cmd.queueUrl = "q" ∧
      cmd.range = some ⟨((([] : List String).length : Nat) : Int), 0,
        ((([] ++ "RECEIVE q" :: ["max-messages: 2"]).length : Nat) : Int) - 1, 1000⟩ :=
  c4_default_substitution_amended "p" "r" [] "RECEIVE q" ["max-messages: 2"]
    SQSCommandType.RECEIVE "q" (by decide) (by decide) rfl
    (by
      intro l hl
      obtain rfl := List.mem_singleton.mp hl
      rfl)
    (by
      intro l hl
      obtain rfl := List.mem_singleton.mp hl
      rfl)
    (by
      intro l hl
      obtain rfl := List.mem_singleton.mp hl
      rfl)

/-- Claim C5, amended: (1) a `{`-starting line under an open `SEND`
command enters the JSON-body state with the brace count set to 1 — the
braces on the opening line itself are never counted; (2) in the
JSON-body state every non-blank, non-comment, non-header line is
appended to the body text, and the state leaves the JSON body exactly
when that line brings the lexical brace count to zero (so lines after
such an exit are *not* appended, correcting the claim); (3) when no
line intervenes between the single body line and the end of the
document, the emitted command's body is exactly the result of the
parse attempted at sealing on that line. -/
theorem c5_single_line_body_amended :
    (∀ (d1 d2 : String) (i : Int) (l : String) (s : ScanState) (b : SQSCommand),
      s.currentCommand = some b → s.inJsonBody = false → b.type = SQSCommandType.SEND →
      strStartsWith (jsTrim l) "\x7b" = true →
      stepLine d1 d2 i l s =
        { s with inJsonBody := true, jsonStartLine := i, bracesCount := 1,
                 commandBodyLines := s.commandBodyLines ++ [jsTrim l] }) ∧
    (∀ (d1 d2 : String) (i : Int) (l : String) (s : ScanState),
      s.inJsonBody = true → jsTrim l ≠ "" → strStartsWith (jsTrim l) "#" = false →
      parseHeader (jsTrim l) = none →
      (stepLine d1 d2 i l s).commandBodyLines = s.commandBodyLines ++ [jsTrim l] ∧
      ((stepLine d1 d2 i l s).inJsonBody = false ↔ s.bracesCount + braceNet (jsTrim l) = 0)) ∧
    (∀ (d1 d2 u hdr l1 : String),
      parseHeader (jsTrim hdr) = some (SQSCommandType.SEND, u) →
      strStartsWith (jsTrim l1) "\x7b" = true →
      ∃ cmd, parseSQSLines d1 d2 [hdr, l1] = [cmd] ∧
        cmd.messageBody = jsonParse (jsTrim l1) ∧
        cmd.type = SQSCommandType.SEND ∧ cmd.queueUrl = u) := by
  refine ⟨?_, ?_, ?_⟩
  · intro d1 d2 i l s b hc hj hty hb
    exact step_brace_entry d1 d2 i l s b hc hj hty hb
  · intro d1 d2 i l s hj hne hsh hH
    have hns : ¬(jsTrim l = "" ∨ strStartsWith (jsTrim l) "#" = true) := by
      intro hor
      rcases hor with he | hq
      · exact hne he
      · rw [hsh] at hq
        exact Bool.noConfusion hq
    rw [show stepLine d1 d2 i l s = stepTrimmed d1 d2 i (jsTrim l) s from rfl,
      stepTrimmed_json d1 d2 i (jsTrim l) s hns hH hj]
    by_cases hz : s.bracesCount + braceNet (jsTrim l) = 0
    · rw [jsonBodyStep_zero (jsTrim l) s hz]
      exact ⟨rfl, by simp [hz]⟩
    · rw [jsonBodyStep_pos (jsTrim l) s hz]
      refine ⟨rfl, ?_⟩
      show s.inJsonBody = false ↔ _
      rw [hj]
      simp [hz]
  · intro d1 d2 u hdr l1 hh hb
    obtain ⟨b', j', jsl, hscan, hty', hu', hmb'⟩ := sendBlockScan d1 d2 u hdr [] l1 []
      hh (fun l hl => absurd hl (List.not_mem_nil l)) hb
      (fun l hl => absurd hl (List.not_mem_nil l))
      (fun k hk => absurd hk (by simp))
    have hscan2 : scanFrom d1 d2 0 [hdr, l1] initState =
        ({ commands := [], currentCommand := some b', commandBodyStartLine := 0,
           commandBodyLines := jsTrim l1 :: List.map jsTrim [],
           inJsonBody := j', jsonStartLine := jsl,
           bracesCount := 1 + (List.map netTrim ([] : List String)).sum } : ScanState) := hscan
    have hmbn : b'.messageBody = none := by
      rw [if_neg (by decide : ¬(1 : Int) + (List.map netTrim ([] : List String)).sum = 0)]
        at hmb'
      exact hmb'
    have hune : b'.queueUrl ≠ "" := by
      rw [hu']
      exact parseHeader_target_ne _ _ u hh
    unfold parseSQSLines
    rw [hscan2, sealIfOpen_of_some _ _ b' rfl hune]
    refine ⟨_, rfl, ?_, ?_, ?_⟩
    · rw [finalizeCommand_body_of_none b' _ _ _ hty' hmbn (by simp)]
      rfl
    · rw [finalizeCommand_type]
      exact hty'
    · rw [finalizeCommand_queueUrl]
      exact hu'

theorem c5_witness :
    ∃ cmd, parseSQSLines "p" "r" ["SEND q", "\x7b\"x\":1\x7d"] = [cmd] ∧
      cmd.messageBody = jsonParse (jsTrim "\x7b\"x\":1\x7d") ∧
      cmd.type = SQSCommandType.SEND ∧ cmd.queueUrl = "q" :=
  c5_single_line_body_amended.2.2 "p" "r" "q" "SEND q" "\x7b\"x\":1\x7d" rfl rfl

theorem c10_witness :
    ∃ cs cmd, parseSQSLines "p" "r" (["# note"] ++ "PURGE q" :: ["region: x"]) = cs ++ [cmd] ∧
      cmd.type = SQSCommandType.PURGE ∧ cmd.queueUrl = "q" ∧
      cmd.range = some ⟨(((["# note"] : List String).length : Nat) : Int), 0,
        (((["# note"] ++ "PURGE q" :: ["region: x"]).length : Nat) : Int) - 1, 1000⟩ :=
  c10_trailing_block "p" "r" ["# note"] "PURGE q" ["region: x"] SQSCommandType.PURGE "q" rfl
    (by
      intro l hl
      obtain rfl := List.mem_singleton.mp hl
      rfl)
    (by
      intro l hl
      obtain rfl := List.mem_singleton.mp hl
      decide)

end SQSClient
